import Mathlib

/-!
Shallow embedding of the mtg-builder multiplayer game engine
(backend/app/models/game.py, backend/app/controllers/mana_utils.py,
backend/app/controllers/game.py) and proofs about its behaviour.

Python objects are modelled as immutable Lean structures; in-place
mutation becomes returning an updated value.  Python `int` is unbounded,
so counters are `Int` (or `Nat` where the code can only ever produce a
non-negative value structurally, e.g. `mulligan_count`).  Python dicts
keyed by strings are association lists with dict semantics (unique keys
by construction; assignment replaces the first matching key or appends).
Randomness (`random.randint` shuffles, `random.shuffle` of player ids)
is modelled by an explicit function parameter together with a
permutation hypothesis in the theorems.  `time` / `uuid` based ids and
timestamps are opaque parameters.
-/

namespace MtgBuilder

/-! ## Enumerations (models/game.py) -/

inductive GamePhase
  | untap | upkeep | draw | main1
  | combatBegin | combatAttackers | combatBlockers | combatDamage | combatEnd
  | main2 | endPhase | cleanup
  deriving DecidableEq, Repr

/-- Model of `GamePhase(phase_str)`: `some` on a valid enum value,
`none` models the `ValueError`. -/
def GamePhase.fromString : String → Option GamePhase
  | "untap" => some .untap
  | "upkeep" => some .upkeep
  | "draw" => some .draw
  | "main1" => some .main1
  | "combat_begin" => some .combatBegin
  | "combat_attackers" => some .combatAttackers
  | "combat_blockers" => some .combatBlockers
  | "combat_damage" => some .combatDamage
  | "combat_end" => some .combatEnd
  | "main2" => some .main2
  | "end" => some .endPhase
  | "cleanup" => some .cleanup
  | _ => none

inductive GameZone
  | library | hand | battlefield | graveyard | exile | command
  deriving DecidableEq, Repr

/-- Member order of the `GameZone` enum, as iterated by
`for zone in GameZone` in `find_card` / `remove_card`. -/
def GameZone.all : List GameZone :=
  [.library, .hand, .battlefield, .graveyard, .exile, .command]

/-- Model of `GameZone(zone_str)`: `none` models the uncaught `ValueError`. -/
def GameZone.fromString : String → Option GameZone
  | "library" => some .library
  | "hand" => some .hand
  | "battlefield" => some .battlefield
  | "graveyard" => some .graveyard
  | "exile" => some .exile
  | "command" => some .command
  | _ => none

/-! ## Cards and mana (models/game.py) -/

/-- `GameCard` dataclass.  `cmc` is a Python float never inspected by any
game logic; it is carried as `Int` here.  `counters` is a str→int dict,
kept as an association list with unique keys. -/
structure GameCard where
  instance_id : String
  card_id : String
  name : String
  mana_cost : Option String
  cmc : Int
  type_line : String
  oracle_text : Option String
  power : Option String
  toughness : Option String
  colors : Option (List String)
  rarity : String
  image_uri : Option String
  zone : GameZone
  is_tapped : Bool := false
  counters : List (String × Int) := []
  attached_to : Option String := none
  face_down : Bool := false
  is_commander : Bool := false
  deriving DecidableEq, Repr

/-- `ManaPool` dataclass: six unbounded integer counters. -/
structure ManaPool where
  W : Int := 0
  U : Int := 0
  B : Int := 0
  R : Int := 0
  G : Int := 0
  C : Int := 0
  deriving DecidableEq, Repr

def ManaPool.total (p : ManaPool) : Int :=
  p.W + p.U + p.B + p.R + p.G + p.C

/-- `MANA_COLORS` from mana_utils.py. -/
def MANA_COLORS : List String := ["W", "U", "B", "R", "G", "C"]

/-- `getattr(pool, color, 0)`. -/
def ManaPool.get (p : ManaPool) (color : String) : Int :=
  if color = "W" then p.W
  else if color = "U" then p.U
  else if color = "B" then p.B
  else if color = "R" then p.R
  else if color = "G" then p.G
  else if color = "C" then p.C
  else 0

/-- `setattr(pool, color, v)`.  For a string that is not one of the six
counters Python would create a ghost attribute that no other code ever
reads (`to_dict`, `total`, `copy` and all game logic touch only the six
fields), so the observable state is unchanged; we model that as a no-op. -/
def ManaPool.set (p : ManaPool) (color : String) (v : Int) : ManaPool :=
  if color = "W" then { p with W := v }
  else if color = "U" then { p with U := v }
  else if color = "B" then { p with B := v }
  else if color = "R" then { p with R := v }
  else if color = "G" then { p with G := v }
  else if color = "C" then { p with C := v }
  else p

/-! ## Mana cost parsing and payment (controllers/mana_utils.py) -/

/-- `ParsedManaCost` dataclass. -/
structure ParsedManaCost where
  generic : Int := 0
  W : Int := 0
  U : Int := 0
  B : Int := 0
  R : Int := 0
  G : Int := 0
  C : Int := 0
  total : Int := 0
  deriving DecidableEq, Repr

/-- Scanner for `re.findall(r"\x7b([^\x7d]+)\x7d", mana_cost)`: at an
opening brace the regex greedily takes the non-closing-brace run and
requires a closing brace and non-empty content; on failure the scan
advances one character.  Structural recursion on a fuel that is always
at least the character count (each step consumes at least one char). -/
def scanSymbols : Nat → List Char → List (List Char)
  | 0, _ => []
  | _, [] => []
  | fuel + 1, c :: rest =>
    if c = '{' then
      let content := rest.takeWhile (fun d => ¬ d = '}')
      match rest.dropWhile (fun d => ¬ d = '}') with
      | _ :: tail =>
        if content = [] then scanSymbols fuel rest
        else content :: scanSymbols fuel tail
      | [] => scanSymbols fuel rest
    else
      scanSymbols fuel rest

/-- `content.isdigit()` for ASCII digit strings. -/
def isDigits (cs : List Char) : Bool :=
  ¬ cs.isEmpty && cs.all (fun c => '0' ≤ c && c ≤ '9')

def digitsVal (cs : List Char) : Int :=
  (cs.foldl (fun n c => n * 10 + (c.toNat - '0'.toNat)) 0 : Nat)

/-- One iteration of the symbol loop in `parse_mana_cost`. -/
def applySymbol (r : ParsedManaCost) (content : List Char) : ParsedManaCost :=
  if content = ['W'] then { r with W := r.W + 1, total := r.total + 1 }
  else if content = ['U'] then { r with U := r.U + 1, total := r.total + 1 }
  else if content = ['B'] then { r with B := r.B + 1, total := r.total + 1 }
  else if content = ['R'] then { r with R := r.R + 1, total := r.total + 1 }
  else if content = ['G'] then { r with G := r.G + 1, total := r.total + 1 }
  else if content = ['C'] then { r with C := r.C + 1, total := r.total + 1 }
  else if isDigits content then
    let num := digitsVal content
    { r with generic := r.generic + num, total := r.total + num }
  else if content = ['X'] then r
  else if content.contains '/' then { r with total := r.total + 1 }
  else r

/-- `parse_mana_cost`.  `if not mana_cost` is true for `None` and `""`. -/
def parse_mana_cost (mana_cost : Option String) : ParsedManaCost :=
  match mana_cost with
  | none => {}
  | some s =>
    if s = "" then {}
    else (scanSymbols s.length s.toList).foldl applySymbol {}

/-- `can_pay_mana_cost`. -/
def can_pay_mana_cost (pool : ManaPool) (cost : ParsedManaCost) : Bool :=
  if pool.W < cost.W then false
  else if pool.U < cost.U then false
  else if pool.B < cost.B then false
  else if pool.R < cost.R then false
  else if pool.G < cost.G then false
  else if pool.C < cost.C then false
  else
    let remaining :=
      (pool.W - cost.W) + (pool.U - cost.U) + (pool.B - cost.B)
        + (pool.R - cost.R) + (pool.G - cost.G) + (pool.C - cost.C)
    decide (remaining ≥ cost.generic)

/-- `generic_allocation.get(color, 0)`. -/
def allocGet (ga : List (String × Int)) (color : String) : Int :=
  match ga with
  | [] => 0
  | kv :: rest => if kv.1 = color then kv.2 else allocGet rest color

/-- One iteration of the explicit-allocation loop in `pay_mana_cost`:
with `amount := ga.get color` and `current` the pool's counter, the
deducted `actual` is `min amount current`. -/
def allocStep (ga : List (String × Int)) (s : ManaPool × Int) (color : String) :
    ManaPool × Int :=
  if allocGet ga color > 0 then
    (s.1.set color (s.1.get color - min (allocGet ga color) (s.1.get color)),
      s.2 - min (allocGet ga color) (s.1.get color))
  else s

/-- The inner `while generic_remaining > 0 and getattr(new_pool, color) > 0`
loop of the auto-pay phase, on a fuel of `generic_remaining.toNat` (the
loop decrements `generic_remaining` every iteration, so this fuel is
exact).  State is `(generic_remaining, count_of_this_color)`. -/
def drainColor : Nat → Int → Int → Int × Int
  | 0, gr, pc => (gr, pc)
  | fuel + 1, gr, pc =>
    if gr > 0 ∧ pc > 0 then drainColor fuel (gr - 1) (pc - 1) else (gr, pc)

/-- One color of the auto-pay fallback loop: the while loop drains this
color's counter into the generic remainder. -/
def autoStep (s : ManaPool × Int) (color : String) : ManaPool × Int :=
  (s.1.set color (drainColor s.2.toNat s.2 (s.1.get color)).2,
    (drainColor s.2.toNat s.2 (s.1.get color)).1)

/-- Fallback payment order: colorless first, then WUBRG. -/
def payOrder : List String := ["C", "W", "U", "B", "R", "G"]

/-- The `if generic_allocation:` block of `pay_mana_cost` (the Python
condition is false for `None` and for an empty dict). -/
def payGenericPhase : Option (List (String × Int)) → ManaPool × Int → ManaPool × Int
  | none, s => s
  | some ga, s => if ga.isEmpty then s else MANA_COLORS.foldl (allocStep ga) s

/-- The `if generic_remaining > 0:` auto-pay block of `pay_mana_cost`. -/
def payAutoPhase (s : ManaPool × Int) : ManaPool × Int :=
  if s.2 > 0 then payOrder.foldl autoStep s else s

/-- `pay_mana_cost`. -/
def pay_mana_cost (pool : ManaPool) (cost : ParsedManaCost)
    (generic_allocation : Option (List (String × Int)) := none) :
    Bool × ManaPool × Option String :=
  if ¬ can_pay_mana_cost pool cost then (false, pool, some "Not enough mana")
  else
    let new_pool : ManaPool :=
      { W := pool.W - cost.W, U := pool.U - cost.U, B := pool.B - cost.B
        R := pool.R - cost.R, G := pool.G - cost.G, C := pool.C - cost.C }
    let s := payAutoPhase (payGenericPhase generic_allocation (new_pool, cost.generic))
    if s.2 > 0 then (false, pool, some "Not enough mana for generic cost")
    else (true, s.1, none)

/-- Sum of the six colored requirements of a cost. -/
def coloredSum (cost : ParsedManaCost) : Int :=
  cost.W + cost.U + cost.B + cost.R + cost.G + cost.C

/-- A cost as produced by `parse_mana_cost`: all counters non-negative. -/
def CostNonneg (cost : ParsedManaCost) : Prop :=
  0 ≤ cost.generic ∧ 0 ≤ cost.W ∧ 0 ≤ cost.U ∧ 0 ≤ cost.B ∧
    0 ≤ cost.R ∧ 0 ≤ cost.G ∧ 0 ≤ cost.C

instance (cost : ParsedManaCost) : Decidable (CostNonneg cost) := by
  unfold CostNonneg; infer_instance

/-- All six pool counters non-negative. -/
def PoolNonneg (p : ManaPool) : Prop :=
  0 ≤ p.W ∧ 0 ≤ p.U ∧ 0 ≤ p.B ∧ 0 ≤ p.R ∧ 0 ≤ p.G ∧ 0 ≤ p.C

instance (p : ManaPool) : Decidable (PoolNonneg p) := by
  unfold PoolNonneg; infer_instance

/-- Pointwise order on pools. -/
def PoolLe (q p : ManaPool) : Prop :=
  q.W ≤ p.W ∧ q.U ≤ p.U ∧ q.B ≤ p.B ∧ q.R ≤ p.R ∧ q.G ≤ p.G ∧ q.C ≤ p.C

instance (q p : ManaPool) : Decidable (PoolLe q p) := by
  unfold PoolLe; infer_instance

/-! ## Association-list helpers (Python dict semantics)

Python dicts have unique keys; assignment replaces the existing entry in
place (preserving insertion order) or appends a new one, `pop` removes
the entry.  With unique keys, replace-first and replace-all coincide;
replace-first is used so the frame lemmas hold for every list. -/

def assocGet {β : Type} : List (String × β) → String → Option β
  | [], _ => none
  | kv :: rest, k => if kv.1 = k then some kv.2 else assocGet rest k

def assocSet {β : Type} : List (String × β) → String → β → List (String × β)
  | [], k, v => [(k, v)]
  | kv :: rest, k, v => if kv.1 = k then (k, v) :: rest else kv :: assocSet rest k v

def assocPop {β : Type} : List (String × β) → String → List (String × β)
  | [], _ => []
  | kv :: rest, k => if kv.1 = k then assocPop rest k else kv :: assocPop rest k

/-! ## Player state (models/game.py) -/

/-- `PlayerGameState` dataclass.  `mulligan_count` only ever starts at 0
and is incremented, so it is a `Nat`. -/
structure PlayerGameState where
  id : String
  name : String
  deck_id : String
  deck_name : String
  life : Int := 40
  poison : Int := 0
  commander_damage : List (String × Int) := []
  mana_pool : ManaPool := {}
  library : List GameCard := []
  hand : List GameCard := []
  battlefield : List GameCard := []
  graveyard : List GameCard := []
  exile : List GameCard := []
  command : List GameCard := []
  mulligan_count : Nat := 0
  has_drawn_opening : Bool := false
  is_ready : Bool := false
  deriving DecidableEq, Repr

/-- `getattr(self, zone.value)` for the six zone lists. -/
def PlayerGameState.getZone (p : PlayerGameState) : GameZone → List GameCard
  | .library => p.library
  | .hand => p.hand
  | .battlefield => p.battlefield
  | .graveyard => p.graveyard
  | .exile => p.exile
  | .command => p.command

def PlayerGameState.setZone (p : PlayerGameState) : GameZone → List GameCard → PlayerGameState
  | .library, l => { p with library := l }
  | .hand, l => { p with hand := l }
  | .battlefield, l => { p with battlefield := l }
  | .graveyard, l => { p with graveyard := l }
  | .exile, l => { p with exile := l }
  | .command, l => { p with command := l }

/-- Split a list at the first element satisfying `q`:
`some (before, hit, after)` or `none`.  Models the
find-by-`instance_id`-then-`pop(i)` loops. -/
def splitFirst {α : Type} (q : α → Bool) : List α → Option (List α × α × List α)
  | [] => none
  | x :: xs =>
    if q x then some ([], x, xs)
    else
      match splitFirst q xs with
      | none => none
      | some (pre, y, post) => some (x :: pre, y, post)

/-- `PlayerGameState.remove_card`: scan the zones in `GameZone` order,
pop the first card whose `instance_id` matches. -/
def removeCardAux (iid : String) (p : PlayerGameState) :
    List GameZone → Option GameCard × PlayerGameState
  | [] => (none, p)
  | z :: zs =>
    match splitFirst (fun c => c.instance_id = iid) (p.getZone z) with
    | some (pre, card, post) => (some card, p.setZone z (pre ++ post))
    | none => removeCardAux iid p zs

def PlayerGameState.remove_card (p : PlayerGameState) (iid : String) :
    Option GameCard × PlayerGameState :=
  removeCardAux iid p GameZone.all

/-! ## History entries and rooms (models/game.py) -/

/-- `GameAction` dataclass; the float timestamp is an opaque `Int`. -/
structure GameAction where
  id : String
  timestamp : Int
  player_id : String
  action_type : String
  card_instance_id : Option String := none
  from_zone : Option String := none
  to_zone : Option String := none
  details : Option String := none
  deriving DecidableEq, Repr

/-- `GameRoom` dataclass.  `players` is an insertion-ordered dict. -/
structure GameRoom where
  id : String
  game_code : String
  host_id : String
  format : String := "Commander"
  max_players : Nat := 4
  min_players : Nat := 2
  players : List (String × PlayerGameState) := []
  turn_order : List String := []
  active_player_id : Option String := none
  turn_number : Nat := 0
  phase : GamePhase := .main1
  started : Bool := false
  history : List GameAction := []
  deriving DecidableEq, Repr

/-! ## Serialization with per-viewer redaction (models/game.py `to_dict`) -/

/-- Shape of the dict produced by `PlayerGameState.to_dict`.  Serialized
cards are represented by the cards themselves (`GameCard.to_dict` is a
field-for-field rendering); the `library`/`hand`/count keys mirror the
owner/non-owner branches, with `none` meaning the key is absent. -/
structure PlayerView where
  id : String
  name : String
  life : Int
  poison : Int
  commanderDamage : List (String × Int)
  manaPool : ManaPool
  battlefield : List GameCard
  graveyard : List GameCard
  exile : List GameCard
  command : List GameCard
  library : List GameCard
  hand : List GameCard
  library_count : Option Nat
  hand_count : Option Nat
  deriving DecidableEq, Repr

def PlayerGameState.to_dict (p : PlayerGameState) (is_owner : Bool) : PlayerView :=
  if is_owner then
    { id := p.id, name := p.name, life := p.life, poison := p.poison
      commanderDamage := p.commander_damage, manaPool := p.mana_pool
      battlefield := p.battlefield, graveyard := p.graveyard
      exile := p.exile, command := p.command
      library := p.library, hand := p.hand
      library_count := none, hand_count := none }
  else
    { id := p.id, name := p.name, life := p.life, poison := p.poison
      commanderDamage := p.commander_damage, manaPool := p.mana_pool
      battlefield := p.battlefield, graveyard := p.graveyard
      exile := p.exile, command := p.command
      library := [], hand := []
      library_count := some p.library.length, hand_count := some p.hand.length }

/-- Shape of the dict produced by `GameRoom.to_dict`. -/
structure RoomView where
  id : String
  game_code : String
  format : String
  players : List PlayerView
  active_player_id : Option String
  turn_number : Nat
  phase : GamePhase
  turn_order : List String
  started : Bool
  history : List GameAction
  deriving DecidableEq, Repr

/-- `GameRoom.to_dict(viewer_id)`.  `history[-20:]` keeps the most
recent 20 entries (all of them when fewer). -/
def GameRoom.to_dict (room : GameRoom) (viewer_id : Option String) : RoomView :=
  { id := room.id, game_code := room.game_code, format := room.format
    players := room.players.map (fun kv =>
      kv.2.to_dict (match viewer_id with
        | some v => decide (kv.1 = v)
        | none => false))
    active_player_id := room.active_player_id
    turn_number := room.turn_number
    phase := room.phase
    turn_order := room.turn_order
    started := room.started
    history := room.history.drop (room.history.length - 20) }

/-! ## Individual game actions (controllers/game.py `GameActionHandler`)

Each Python handler mutates `player` and returns `(success, error)`;
here they return `(success, error, player')`. -/

namespace GameActionHandler

def draw_card (player : PlayerGameState) : Bool × Option String × PlayerGameState :=
  match player.library with
  | [] => (false, some "Library is empty", player)
  | card :: rest =>
    (true, none,
      { player with
        library := rest
        hand := player.hand ++ [{ card with zone := .hand }] })

/-- The `for _ in range(n)` pop-front/append loop of `draw_opening_hand`. -/
def drawLoop : Nat → PlayerGameState → PlayerGameState
  | 0, p => p
  | n + 1, p =>
    match p.library with
    | [] => p
    | card :: rest =>
      drawLoop n
        { p with
          library := rest
          hand := p.hand ++ [{ card with zone := .hand }] }

def draw_opening_hand (player : PlayerGameState) : Bool × Option String × PlayerGameState :=
  let hand_size := 7 - player.mulligan_count
  let p := drawLoop (min hand_size player.library.length) player
  (true, none, { p with has_drawn_opening := true })

/-- `mulligan`.  The `_shuffle` call (random Fisher–Yates) is the
`shuffle` parameter; theorems assume it permutes its input. -/
def mulligan (shuffle : List GameCard → List GameCard)
    (player : PlayerGameState) : Bool × Option String × PlayerGameState :=
  if player.mulligan_count ≥ 6 then (false, some "Cannot mulligan further", player)
  else
    let returned := player.hand.map (fun c => { c with zone := GameZone.library })
    let p := { player with library := player.library ++ returned, hand := [] }
    let p := { p with library := shuffle p.library, mulligan_count := p.mulligan_count + 1 }
    (true, none, (draw_opening_hand p).2.2)

def keep_hand (player : PlayerGameState) : Bool × Option String × PlayerGameState :=
  (true, none, { player with is_ready := true })

def play_card (player : PlayerGameState) (instance_id : String) :
    Bool × Option String × PlayerGameState :=
  match splitFirst (fun c => c.instance_id = instance_id) player.hand with
  | none => (false, some "Card not found in hand", player)
  | some (pre, card, post) =>
    (true, none,
      { player with
        hand := pre ++ post
        battlefield := player.battlefield
          ++ [{ card with zone := .battlefield, is_tapped := false }] })

def move_card (player : PlayerGameState) (instance_id : String) (to_zone : GameZone) :
    Bool × Option String × PlayerGameState :=
  match player.remove_card instance_id with
  | (none, _) => (false, some "Card not found", player)
  | (some card, p) =>
    let card := { card with zone := to_zone }
    let card :=
      if to_zone = GameZone.hand ∨ to_zone = GameZone.library then
        { card with is_tapped := false }
      else card
    (true, none, p.setZone to_zone (p.getZone to_zone ++ [card]))

def discard_card (player : PlayerGameState) (instance_id : String) :
    Bool × Option String × PlayerGameState :=
  match splitFirst (fun c => c.instance_id = instance_id) player.hand with
  | none => (false, some "Card not found in hand", player)
  | some (pre, card, post) =>
    (true, none,
      { player with
        hand := pre ++ post
        graveyard := player.graveyard ++ [{ card with zone := .graveyard }] })

def tap_card (player : PlayerGameState) (instance_id : String) :
    Bool × Option String × PlayerGameState :=
  match splitFirst (fun c => c.instance_id = instance_id) player.battlefield with
  | none => (false, some "Card not found on battlefield", player)
  | some (pre, card, post) =>
    (true, none,
      { player with battlefield := pre ++ { card with is_tapped := ¬ card.is_tapped } :: post })

def tap_for_mana (player : PlayerGameState) (instance_id : String) (color : String) :
    Bool × Option String × PlayerGameState :=
  match splitFirst (fun c => c.instance_id = instance_id) player.battlefield with
  | none => (false, some "Card not found on battlefield", player)
  | some (pre, card, post) =>
    if card.is_tapped then (false, some "Card is already tapped", player)
    else
      (true, none,
        { player with
          battlefield := pre ++ { card with is_tapped := true } :: post
          mana_pool := player.mana_pool.set color (player.mana_pool.get color + 1) })

def untap_all (player : PlayerGameState) : Bool × Option String × PlayerGameState :=
  (true, none,
    { player with battlefield := player.battlefield.map (fun c => { c with is_tapped := false }) })

def add_mana (player : PlayerGameState) (color : String) (amount : Int) :
    Bool × Option String × PlayerGameState :=
  if ¬ color ∈ MANA_COLORS then (false, some ("Invalid mana color: " ++ color), player)
  else
    (true, none,
      { player with mana_pool := player.mana_pool.set color (player.mana_pool.get color + amount) })

def remove_mana (player : PlayerGameState) (color : String) (amount : Int) :
    Bool × Option String × PlayerGameState :=
  if ¬ color ∈ MANA_COLORS then (false, some ("Invalid mana color: " ++ color), player)
  else
    (true, none,
      { player with
        mana_pool := player.mana_pool.set color (max 0 (player.mana_pool.get color - amount)) })

def clear_mana_pool (player : PlayerGameState) : Bool × Option String × PlayerGameState :=
  (true, none, { player with mana_pool := {} })

def shuffle_library (shuffle : List GameCard → List GameCard)
    (player : PlayerGameState) : Bool × Option String × PlayerGameState :=
  (true, none, { player with library := shuffle player.library })

/-- The `for _ in range(min(count, len(library)))` loop of `mill`. -/
def millLoop : Nat → PlayerGameState → PlayerGameState
  | 0, p => p
  | n + 1, p =>
    match p.library with
    | [] => p
    | card :: rest =>
      millLoop n
        { p with
          library := rest
          graveyard := p.graveyard ++ [{ card with zone := .graveyard }] }

/-- `mill`.  `count` arrives from the client as an arbitrary int;
`range` of a negative bound is empty, hence the `toNat`. -/
def mill (player : PlayerGameState) (count : Int) :
    Bool × Option String × PlayerGameState :=
  (true, none, millLoop (min count (player.library.length : Int)).toNat player)

def update_life (player : PlayerGameState) (change : Int) :
    Bool × Option String × PlayerGameState :=
  (true, none, { player with life := player.life + change })

/-- `card.counters` get with default 0. -/
def countersGet (cs : List (String × Int)) (k : String) : Int :=
  match assocGet cs k with
  | some v => v
  | none => 0

def add_counter (player : PlayerGameState) (instance_id : String) (counter_type : String) :
    Bool × Option String × PlayerGameState :=
  match splitFirst (fun c => c.instance_id = instance_id) player.battlefield with
  | none => (false, some "Card not found on battlefield", player)
  | some (pre, card, post) =>
    let card :=
      { card with
        counters := assocSet card.counters counter_type
          (countersGet card.counters counter_type + 1) }
    (true, none, { player with battlefield := pre ++ card :: post })

def remove_counter (player : PlayerGameState) (instance_id : String) (counter_type : String) :
    Bool × Option String × PlayerGameState :=
  match splitFirst (fun c => c.instance_id = instance_id) player.battlefield with
  | none => (false, some "Card not found on battlefield", player)
  | some (pre, card, post) =>
    let count := countersGet card.counters counter_type
    let card :=
      if count ≤ 1 then { card with counters := assocPop card.counters counter_type }
      else { card with counters := assocSet card.counters counter_type (count - 1) }
    (true, none, { player with battlefield := pre ++ card :: post })

end GameActionHandler

/-! ## Room manager (controllers/game.py `GameRoomManager`) -/

/-- The JSON action message.  Python reads fields with
`action.get(key, default)`; `none` models an absent key, the `.get`
defaults are applied at each use site exactly as in the source. -/
structure ActionMsg where
  action : Option String := none
  instance_id : Option String := none
  to_zone : Option String := none
  color : Option String := none
  amount : Option Int := none
  count : Option Int := none
  change : Option Int := none
  counter_type : Option String := none
  phase : Option String := none
  details : Option String := none
  deriving DecidableEq, Repr

/-- Result of `handle_action`: either the `(success, error)` pair the
method returns, or `raised` for the one uncaught exception path
(`GameZone(...)` on an invalid `to_zone` string). -/
inductive HandlerOutcome
  | ok (success : Bool) (error : Option String)
  | raised
  deriving DecidableEq, Repr

/-- `start_game`, at the room level (the manager's room lookup already
done).  `random.shuffle(player_ids)` is the `permIds` parameter. -/
def start_game (permIds : List String → List String) (room : GameRoom) :
    Bool × Option String × GameRoom :=
  if room.started then (false, some "Game already started", room)
  else if room.players.length < room.min_players then
    (false, some ("Need at least " ++ toString room.min_players ++ " players"), room)
  else if ¬ room.players.all (fun kv => kv.2.is_ready) then
    (false, some "Not all players are ready", room)
  else
    let player_ids := permIds (room.players.map (fun kv => kv.1))
    (true, none,
      { room with
        turn_order := player_ids
        active_player_id := player_ids[0]?
        turn_number := 1
        phase := .main1
        started := true })

/-- `GameRoomManager._set_phase`. -/
def setPhase (room : GameRoom) (phase_str : String) : Bool × Option String × GameRoom :=
  match GamePhase.fromString phase_str with
  | some ph => (true, none, { room with phase := ph })
  | none => (false, some ("Invalid phase: " ++ phase_str), room)

/-- The untap-and-clear step of `_next_turn`:
`room.players.get(active_player_id or "")` skips it when the active
player is absent from the player map. -/
def untapClearActive (room : GameRoom) : GameRoom :=
  match assocGet room.players (room.active_player_id.getD "") with
  | some ap =>
    { room with
      players := assocSet room.players (room.active_player_id.getD "")
        (GameActionHandler.clear_mana_pool (GameActionHandler.untap_all ap).2.2).2.2 }
  | none => room

/-- `current_idx` of `_next_turn` over Python ints: the first index of
the active player in `turn_order`, `-1` when the id is absent or `None`
(`None in list[str]` is false). -/
def currentIdx (room : GameRoom) : Int :=
  match room.active_player_id with
  | some a => if a ∈ room.turn_order then (room.turn_order.indexOf a : Int) else -1
  | none => -1

/-- The advance step of `_next_turn`:
`next_idx = (current_idx + 1) % len(turn_order)`. -/
def advanceTurn (room : GameRoom) : GameRoom :=
  { room with
    active_player_id := room.turn_order[((currentIdx room + 1) % (room.turn_order.length : Int)).toNat]?
    turn_number := room.turn_number + 1
    phase := .untap }

/-- `GameRoomManager._next_turn` (the untap/clear mutation changes only
`players`, so the subsequent `turn_order`/`active_player_id` reads see
the same values). -/
def nextTurn (room : GameRoom) (_user_id : String) : Bool × Option String × GameRoom :=
  if room.turn_order.isEmpty then (false, some "No turn order set", room)
  else (true, none, advanceTurn (untapClearActive room))

/-- Lift a player-level handler result back into the room (the Python
handlers mutate the player object held in `room.players`). -/
def liftPlayer (room : GameRoom) (user_id : String)
    (r : Bool × Option String × PlayerGameState) : Bool × Option String × GameRoom :=
  (r.1, r.2.1, { room with players := assocSet room.players user_id r.2.2 })

/-- The history-recording epilogue of `handle_action`: a successful
action appends exactly one `GameAction`. -/
def recordHistory (newId : String) (ts : Int) (user_id action_type : String)
    (act : ActionMsg) (r : Bool × Option String × GameRoom) :
    HandlerOutcome × GameRoom :=
  if r.1 then
    (.ok true r.2.1,
      { r.2.2 with
        history := r.2.2.history ++
          [{ id := newId, timestamp := ts, player_id := user_id
             action_type := action_type
             card_instance_id := act.instance_id
             from_zone := none
             to_zone := act.to_zone
             details := act.details }] })
  else (.ok false r.2.1, r.2.2)

/-- The pre-game branch of `handle_action` (room not started): only
`mulligan`, `keep_hand` and `draw_opening_hand` are accepted, they
return directly and record no history; `keep_hand` triggers
`start_game` when afterwards all seated players are ready and the
minimum count is met. -/
def preGame (shuffle : List GameCard → List GameCard)
    (permIds : List String → List String) (room : GameRoom) (user_id : String)
    (player : PlayerGameState) (action_type : String) : HandlerOutcome × GameRoom :=
  if action_type = "mulligan" then
    let r := liftPlayer room user_id (GameActionHandler.mulligan shuffle player)
    (.ok r.1 r.2.1, r.2.2)
  else if action_type = "keep_hand" then
    let r := liftPlayer room user_id (GameActionHandler.keep_hand player)
    let room₁ := r.2.2
    let room₂ :=
      if r.1 then
        if room₁.players.all (fun kv => kv.2.is_ready)
            && room₁.players.length ≥ room₁.min_players then
          (start_game permIds room₁).2.2
        else room₁
      else room₁
    (.ok r.1 r.2.1, room₂)
  else if action_type = "draw_opening_hand" then
    if ¬ player.has_drawn_opening then
      let r := liftPlayer room user_id (GameActionHandler.draw_opening_hand player)
      (.ok r.1 r.2.1, r.2.2)
    else (.ok false (some "Opening hand already drawn"), room)
  else (.ok false (some "Game has not started yet"), room)

/-- The in-game branch of `handle_action`: dispatch through
`handler_map`, then the history epilogue. -/
def inGame (shuffle : List GameCard → List GameCard) (newId : String) (ts : Int)
    (room : GameRoom) (user_id : String) (player : PlayerGameState)
    (act : ActionMsg) (action_type : String) : HandlerOutcome × GameRoom :=
  if action_type = "draw_card" then
    recordHistory newId ts user_id action_type act
      (liftPlayer room user_id (GameActionHandler.draw_card player))
  else if action_type = "play_card" then
    recordHistory newId ts user_id action_type act
      (liftPlayer room user_id
        (GameActionHandler.play_card player (act.instance_id.getD "")))
  else if action_type = "move_card" then
    match GameZone.fromString (act.to_zone.getD "battlefield") with
    | none => (.raised, room)
    | some z =>
      recordHistory newId ts user_id action_type act
        (liftPlayer room user_id
          (GameActionHandler.move_card player (act.instance_id.getD "") z))
  else if action_type = "discard_card" then
    recordHistory newId ts user_id action_type act
      (liftPlayer room user_id
        (GameActionHandler.discard_card player (act.instance_id.getD "")))
  else if action_type = "tap_card" then
    recordHistory newId ts user_id action_type act
      (liftPlayer room user_id
        (GameActionHandler.tap_card player (act.instance_id.getD "")))
  else if action_type = "tap_for_mana" then
    recordHistory newId ts user_id action_type act
      (liftPlayer room user_id
        (GameActionHandler.tap_for_mana player (act.instance_id.getD "")
          (act.color.getD "C")))
  else if action_type = "untap_all" then
    recordHistory newId ts user_id action_type act
      (liftPlayer room user_id (GameActionHandler.untap_all player))
  else if action_type = "add_mana" then
    recordHistory newId ts user_id action_type act
      (liftPlayer room user_id
        (GameActionHandler.add_mana player (act.color.getD "C") (act.amount.getD 1)))
  else if action_type = "remove_mana" then
    recordHistory newId ts user_id action_type act
      (liftPlayer room user_id
        (GameActionHandler.remove_mana player (act.color.getD "C") (act.amount.getD 1)))
  else if action_type = "clear_mana_pool" then
    recordHistory newId ts user_id action_type act
      (liftPlayer room user_id (GameActionHandler.clear_mana_pool player))
  else if action_type = "shuffle_library" then
    recordHistory newId ts user_id action_type act
      (liftPlayer room user_id (GameActionHandler.shuffle_library shuffle player))
  else if action_type = "mill" then
    recordHistory newId ts user_id action_type act
      (liftPlayer room user_id (GameActionHandler.mill player (act.count.getD 1)))
  else if action_type = "update_life" then
    recordHistory newId ts user_id action_type act
      (liftPlayer room user_id (GameActionHandler.update_life player (act.change.getD 0)))
  else if action_type = "add_counter" then
    recordHistory newId ts user_id action_type act
      (liftPlayer room user_id
        (GameActionHandler.add_counter player (act.instance_id.getD "")
          (act.counter_type.getD "+1/+1")))
  else if action_type = "remove_counter" then
    recordHistory newId ts user_id action_type act
      (liftPlayer room user_id
        (GameActionHandler.remove_counter player (act.instance_id.getD "")
          (act.counter_type.getD "+1/+1")))
  else if action_type = "set_phase" then
    recordHistory newId ts user_id action_type act
      (setPhase room (act.phase.getD "main1"))
  else if action_type = "next_turn" then
    recordHistory newId ts user_id action_type act (nextTurn room user_id)
  else
    (.ok false (some ("Unknown action: " ++ action_type)), room)

/-- `GameRoomManager.handle_action`, at the room level (the manager's
`rooms.get(game_code)` lookup already done; a missing room mutates
nothing).  `shuffle` stands for `_shuffle`, `permIds` for
`random.shuffle` in `start_game`, `newId`/`ts` for the generated
history id and timestamp. -/
def handle_action (shuffle : List GameCard → List GameCard)
    (permIds : List String → List String) (newId : String) (ts : Int)
    (room : GameRoom) (user_id : String) (act : ActionMsg) :
    HandlerOutcome × GameRoom :=
  match assocGet room.players user_id with
  | none => (.ok false (some "Player not in game"), room)
  | some player =>
    if ¬ room.started then
      preGame shuffle permIds room user_id player (act.action.getD "")
    else
      inGame shuffle newId ts room user_id player act (act.action.getD "")

/-- Registry state of `GameRoomManager`; connection values (WebSocket
handles) are elided, keeping only which user ids are registered. -/
structure ManagerState where
  rooms : List (String × GameRoom) := []
  connections : List (String × List String) := []
  player_room : List (String × String) := []
  deriving DecidableEq, Repr

/-- `GameRoomManager.leave_room`. -/
def leave_room (st : ManagerState) (user_id : String) : Option String × ManagerState :=
  match assocGet st.player_room user_id with
  | none => (none, st)
  | some game_code =>
    let st := { st with player_room := assocPop st.player_room user_id }
    match assocGet st.rooms game_code with
    | none => (some game_code, st)
    | some room =>
      let room := { room with players := assocPop room.players user_id }
      let st := { st with rooms := assocSet st.rooms game_code room }
      let st :=
        match assocGet st.connections game_code with
        | some conns =>
          { st with
            connections := assocSet st.connections game_code
              (conns.filter (fun u => ¬ u = user_id)) }
        | none => st
      if room.players.isEmpty then
        (some game_code,
          { st with
            rooms := assocPop st.rooms game_code
            connections := assocPop st.connections game_code })
      else (some game_code, st)

/-! ## Concrete instances used to exercise the theorems -/

/-- A minimal player state used to instantiate theorems on concrete
inputs (all zone lists empty, fresh pool, defaults as in the dataclass). -/
def basePlayer : PlayerGameState :=
  { id := "p1", name := "P1", deck_id := "d1", deck_name := "Deck" }

/-- A concrete card with the given instance id and zone. -/
def mkCard (iid : String) (z : GameZone) : GameCard :=
  { instance_id := iid, card_id := "c", name := "Card", mana_cost := none
    cmc := 0, type_line := "Artifact", oracle_text := none, power := none
    toughness := none, colors := none, rarity := "common", image_uri := none
    zone := z }

/-- A player with a small library and hand. -/
def demoPlayer : PlayerGameState :=
  { basePlayer with
    library := [mkCard "c1" .library, mkCard "c2" .library]
    hand := [mkCard "c3" .hand] }

/-- A copy of `basePlayer` under another id. -/
def namedPlayer (n : String) : PlayerGameState :=
  { basePlayer with id := n }

/-- A started three-player room with turn order `[A, B, C]` and active
player `B`. -/
def demoRoom : GameRoom :=
  { id := "r1", game_code := "ABC123", host_id := "A"
    players := [("A", namedPlayer "A"), ("B", namedPlayer "B"), ("C", namedPlayer "C")]
    turn_order := ["A", "B", "C"]
    active_player_id := some "B"
    turn_number := 3
    phase := .main1
    started := true }

/-- A two-player lobby (not started); `A` is already ready. -/
def lobbyRoom : GameRoom :=
  { id := "r2", game_code := "LOBBY1", host_id := "A"
    players := [("A", { namedPlayer "A" with is_ready := true }), ("B", namedPlayer "B")] }

/-- A registry holding the demo room with all three players connected. -/
def demoManager : ManagerState :=
  { rooms := [("ABC123", demoRoom)]
    connections := [("ABC123", ["A", "B", "C"])]
    player_room := [("A", "ABC123"), ("B", "ABC123"), ("C", "ABC123")] }

/-! ## Zone aggregation (claim C2) -/

/-- All card instances of a player across the six zone lists. -/
def allCards (p : PlayerGameState) : List GameCard :=
  p.library ++ p.hand ++ p.battlefield ++ p.graveyard ++ p.exile ++ p.command

/-- The instance ids across all six zone lists; a card instance lives
in exactly one zone exactly when this list has no duplicates and
contains the id once. -/
def allIds (p : PlayerGameState) : List String :=
  (allCards p).map GameCard.instance_id

/-! ## Proofs

### Mana payment (claims C1, C6) -/

lemma PoolLe.refl (p : ManaPool) : PoolLe p p := by
  unfold PoolLe; omega

lemma PoolLe.trans {q p r : ManaPool} (h1 : PoolLe q p) (h2 : PoolLe p r) :
    PoolLe q r := by
  unfold PoolLe at *; omega

lemma can_pay_true_iff (pool : ManaPool) (cost : ParsedManaCost) :
    can_pay_mana_cost pool cost = true ↔
      cost.W ≤ pool.W ∧ cost.U ≤ pool.U ∧ cost.B ≤ pool.B ∧ cost.R ≤ pool.R ∧
        cost.G ≤ pool.G ∧ cost.C ≤ pool.C ∧
        coloredSum cost + cost.generic ≤ pool.total := by
  unfold can_pay_mana_cost coloredSum ManaPool.total
  split_ifs <;> simp <;> omega

lemma get_nonneg {p : ManaPool} (h : PoolNonneg p) (c : String) : 0 ≤ p.get c := by
  unfold PoolNonneg at h; unfold ManaPool.get
  split_ifs <;> omega

lemma set_total_or (p : ManaPool) (c : String) (v : Int) :
    (p.set c v).total = p.total - p.get c + v ∨ (p.set c v = p ∧ p.get c = 0) := by
  unfold ManaPool.set ManaPool.get ManaPool.total
  split_ifs <;> first
    | exact Or.inr ⟨rfl, rfl⟩
    | (left; simp; try omega)

lemma set_le_of {p : ManaPool} {c : String} {v : Int} (h : v ≤ p.get c) :
    PoolLe (p.set c v) p := by
  unfold ManaPool.set ManaPool.get at *; unfold PoolLe
  split_ifs at * <;> simp_all

lemma set_nonneg {p : ManaPool} {c : String} {v : Int}
    (hp : PoolNonneg p) (hv : 0 ≤ v) : PoolNonneg (p.set c v) := by
  unfold PoolNonneg at *; unfold ManaPool.set
  split_ifs <;> simp_all

lemma allocStep_spec (ga : List (String × Int)) (s : ManaPool × Int) (c : String)
    (h : PoolNonneg s.1) :
    PoolNonneg (allocStep ga s c).1 ∧ PoolLe (allocStep ga s c).1 s.1 ∧
      (allocStep ga s c).1.total - (allocStep ga s c).2 = s.1.total - s.2 := by
  unfold allocStep
  by_cases ha : allocGet ga c > 0
  · rw [if_pos ha]
    dsimp only
    have hg := get_nonneg h c
    have hmin : min (allocGet ga c) (s.1.get c) ≤ s.1.get c := min_le_right _ _
    have hmin0 : 0 ≤ min (allocGet ga c) (s.1.get c) := le_min (by omega) hg
    refine ⟨set_nonneg h (by omega), set_le_of (by omega), ?_⟩
    rcases set_total_or s.1 c (s.1.get c - min (allocGet ga c) (s.1.get c)) with ht | ⟨ht, hz⟩
    · rw [ht]; omega
    · rw [ht]; omega
  · rw [if_neg ha]
    exact ⟨h, PoolLe.refl s.1, by omega⟩

lemma drainColor_spec (fuel : Nat) : ∀ (gr pc : Int),
    (drainColor fuel gr pc).1 ≤ gr ∧ (drainColor fuel gr pc).2 ≤ pc ∧
      gr - pc = (drainColor fuel gr pc).1 - (drainColor fuel gr pc).2 ∧
      (0 ≤ gr → 0 ≤ (drainColor fuel gr pc).1) ∧
      (0 ≤ pc → 0 ≤ (drainColor fuel gr pc).2) ∧
      (gr.toNat ≤ fuel → (drainColor fuel gr pc).1 ≤ 0 ∨ (drainColor fuel gr pc).2 ≤ 0) := by
  induction fuel with
  | zero =>
    intro gr pc
    refine ⟨le_refl _, le_refl _, rfl, fun h => h, fun h => h, fun h => Or.inl ?_⟩
    show gr ≤ 0
    omega
  | succ n ih =>
    intro gr pc
    simp only [drainColor]
    split_ifs with hc
    · have := ih (gr - 1) (pc - 1)
      omega
    · dsimp only
      omega

lemma autoStep_spec (s : ManaPool × Int) (c : String) (h : PoolNonneg s.1) :
    PoolNonneg (autoStep s c).1 ∧ PoolLe (autoStep s c).1 s.1 ∧
      (autoStep s c).1.total - (autoStep s c).2 = s.1.total - s.2 ∧
      (autoStep s c).2 ≤ s.2 ∧ (0 ≤ s.2 → 0 ≤ (autoStep s c).2) := by
  unfold autoStep
  dsimp only
  have hd := drainColor_spec s.2.toNat s.2 (s.1.get c)
  have hg := get_nonneg h c
  rcases hd with ⟨h1, h2, h3, h4, h5, h6⟩
  have hpc : 0 ≤ (drainColor s.2.toNat s.2 (s.1.get c)).2 := h5 hg
  refine ⟨set_nonneg h hpc, set_le_of h2, ?_, by omega, by omega⟩
  rcases set_total_or s.1 c (drainColor s.2.toNat s.2 (s.1.get c)).2 with ht | ⟨ht, hz⟩
  · rw [ht]; omega
  · rw [ht]; omega

lemma foldl_allocStep_spec (ga : List (String × Int)) (cs : List String) :
    ∀ (s : ManaPool × Int), PoolNonneg s.1 →
      PoolNonneg (cs.foldl (allocStep ga) s).1 ∧
        PoolLe (cs.foldl (allocStep ga) s).1 s.1 ∧
        (cs.foldl (allocStep ga) s).1.total - (cs.foldl (allocStep ga) s).2
          = s.1.total - s.2 := by
  induction cs with
  | nil => intro s hs; exact ⟨hs, PoolLe.refl s.1, by simp⟩
  | cons c cs ih =>
    intro s hs
    have h1 := allocStep_spec ga s c hs
    have h2 := ih (allocStep ga s c) h1.1
    exact ⟨h2.1, h2.2.1.trans h1.2.1, by simp only [List.foldl_cons]; omega⟩

lemma foldl_autoStep_spec (cs : List String) :
    ∀ (s : ManaPool × Int), PoolNonneg s.1 →
      PoolNonneg (cs.foldl autoStep s).1 ∧
        PoolLe (cs.foldl autoStep s).1 s.1 ∧
        (cs.foldl autoStep s).1.total - (cs.foldl autoStep s).2 = s.1.total - s.2 ∧
        (cs.foldl autoStep s).2 ≤ s.2 ∧
        (0 ≤ s.2 → 0 ≤ (cs.foldl autoStep s).2) := by
  induction cs with
  | nil => intro s hs; exact ⟨hs, PoolLe.refl s.1, by simp, le_refl _, fun h => h⟩
  | cons c cs ih =>
    intro s hs
    have h1 := autoStep_spec s c hs
    have h2 := ih (autoStep s c) h1.1
    refine ⟨h2.1, h2.2.1.trans h1.2.1, ?_, ?_, ?_⟩
    · simp only [List.foldl_cons]; omega
    · simp only [List.foldl_cons]; omega
    · simp only [List.foldl_cons]; intro h0; exact h2.2.2.2.2 (h1.2.2.2.2 h0)

lemma payGenericPhase_spec (ga : Option (List (String × Int))) (s : ManaPool × Int)
    (h : PoolNonneg s.1) :
    PoolNonneg (payGenericPhase ga s).1 ∧ PoolLe (payGenericPhase ga s).1 s.1 ∧
      (payGenericPhase ga s).1.total - (payGenericPhase ga s).2 = s.1.total - s.2 ∧
      (ga = none → payGenericPhase ga s = s) := by
  rcases ga with _ | l
  · refine ⟨h, PoolLe.refl s.1, ?_, fun _ => rfl⟩
    show s.1.total - s.2 = s.1.total - s.2
    rfl
  · simp only [payGenericPhase]
    split_ifs with he
    · exact ⟨h, PoolLe.refl s.1, by omega, by simp⟩
    · have := foldl_allocStep_spec l MANA_COLORS s h
      exact ⟨this.1, this.2.1, this.2.2, by simp⟩

lemma payAutoPhase_spec (s : ManaPool × Int) (h : PoolNonneg s.1) :
    PoolNonneg (payAutoPhase s).1 ∧ PoolLe (payAutoPhase s).1 s.1 ∧
      (payAutoPhase s).1.total - (payAutoPhase s).2 = s.1.total - s.2 ∧
      (0 ≤ s.2 → 0 ≤ (payAutoPhase s).2) := by
  unfold payAutoPhase
  split_ifs with hp
  · have := foldl_autoStep_spec payOrder s h
    exact ⟨this.1, this.2.1, this.2.2.1, this.2.2.2.2⟩
  · exact ⟨h, PoolLe.refl s.1, by omega, fun h0 => h0⟩

lemma pool_sub_total (pool : ManaPool) (cost : ParsedManaCost) :
    ({ W := pool.W - cost.W, U := pool.U - cost.U, B := pool.B - cost.B
       R := pool.R - cost.R, G := pool.G - cost.G, C := pool.C - cost.C } : ManaPool).total
      = pool.total - coloredSum cost := by
  unfold ManaPool.total coloredSum
  dsimp only
  ring

lemma pool_sub_nonneg {pool : ManaPool} {cost : ParsedManaCost}
    (hcp : can_pay_mana_cost pool cost = true) :
    PoolNonneg { W := pool.W - cost.W, U := pool.U - cost.U, B := pool.B - cost.B
                 R := pool.R - cost.R, G := pool.G - cost.G, C := pool.C - cost.C } := by
  rw [can_pay_true_iff] at hcp
  unfold PoolNonneg
  dsimp only
  omega

/-- `pay_mana_cost` never produces a negative counter: on failure the
input pool comes back, on success every counter of the new pool is
non-negative (the colored step is guarded by `can_pay_mana_cost`, the
allocation step clamps with `min`, the auto-pay loop stops at zero). -/
lemma pay_mana_cost_nonneg (pool : ManaPool) (cost : ParsedManaCost)
    (ga : Option (List (String × Int))) (h : PoolNonneg pool) :
    PoolNonneg (pay_mana_cost pool cost ga).2.1 := by
  unfold pay_mana_cost
  by_cases hcp : can_pay_mana_cost pool cost = true
  · rw [if_neg (by simp [hcp])]
    dsimp only
    have h0 := pool_sub_nonneg hcp
    have hG := payGenericPhase_spec ga
      (({ W := pool.W - cost.W, U := pool.U - cost.U, B := pool.B - cost.B
          R := pool.R - cost.R, G := pool.G - cost.G, C := pool.C - cost.C } : ManaPool),
        cost.generic) h0
    have hA := payAutoPhase_spec _ hG.1
    split_ifs
    · exact h
    · exact hA.1
  · rw [if_pos (by simpa using hcp)]
    exact h

/-- C1 (amended): for every pool, parsed cost (all counters
non-negative) and optional generic allocation, `pay_mana_cost` either
fails and returns a pool equal field-for-field to the input, or
succeeds and returns a new pool in which every colored requirement has
been deducted and at least the full generic total has been deducted —
exactly the generic total when no per-color allocation is supplied (an
over-allocating explicit allocation can deduct more, see the
counterexample). -/
theorem pay_mana_cost_atomic (pool : ManaPool) (cost : ParsedManaCost)
    (ga : Option (List (String × Int))) (hc : CostNonneg cost) :
    ((pay_mana_cost pool cost ga).1 = false → (pay_mana_cost pool cost ga).2.1 = pool) ∧
    ((pay_mana_cost pool cost ga).1 = true →
      PoolLe (pay_mana_cost pool cost ga).2.1
        { W := pool.W - cost.W, U := pool.U - cost.U, B := pool.B - cost.B
          R := pool.R - cost.R, G := pool.G - cost.G, C := pool.C - cost.C } ∧
      coloredSum cost + cost.generic ≤ pool.total - (pay_mana_cost pool cost ga).2.1.total ∧
      (ga = none →
        pool.total - (pay_mana_cost pool cost ga).2.1.total
          = coloredSum cost + cost.generic)) := by
  unfold pay_mana_cost
  by_cases hcp : can_pay_mana_cost pool cost = true
  · rw [if_neg (by simp [hcp])]
    dsimp only
    have h0 := pool_sub_nonneg hcp
    have hG := payGenericPhase_spec ga
      (({ W := pool.W - cost.W, U := pool.U - cost.U, B := pool.B - cost.B
          R := pool.R - cost.R, G := pool.G - cost.G, C := pool.C - cost.C } : ManaPool),
        cost.generic) h0
    have hA := payAutoPhase_spec _ hG.1
    have htot := pool_sub_total pool cost
    split_ifs with hgt
    · exact ⟨fun _ => rfl, fun hcontra => by simp at hcontra⟩
    · refine ⟨fun hcontra => by simp at hcontra, fun _ => ⟨hA.2.1.trans hG.2.1, ?_, ?_⟩⟩
      · dsimp only
        have e1 := hA.2.2.1
        have e2 := hG.2.2.1
        dsimp only at e2
        omega
      · intro hnone
        subst hnone
        have e0 : payGenericPhase none
            (({ W := pool.W - cost.W, U := pool.U - cost.U, B := pool.B - cost.B
                R := pool.R - cost.R, G := pool.G - cost.G, C := pool.C - cost.C } : ManaPool),
              cost.generic) =
            (({ W := pool.W - cost.W, U := pool.U - cost.U, B := pool.B - cost.B
                R := pool.R - cost.R, G := pool.G - cost.G, C := pool.C - cost.C } : ManaPool),
              cost.generic) := rfl
        rw [e0] at hA hgt ⊢
        dsimp only
        have e1 := hA.2.2.1
        have e2 := hA.2.2.2 (by exact hc.1)
        dsimp only at e1 e2
        omega
  · rw [if_pos (by simpa using hcp)]
    exact ⟨fun _ => rfl, fun hcontra => by simp at hcontra⟩

/-- C1 counterexample: with pool `W=5`, cost `\x7b1\x7d` (one generic) and
explicit allocation `W ↦ 3`, payment succeeds but three white mana are
deducted for a generic total of one — the claimed exact deduction
("every colored requirement and the full generic total") fails. -/
theorem pay_mana_cost_exact_deduction_counterexample :
    (pay_mana_cost ⟨5, 0, 0, 0, 0, 0⟩ (parse_mana_cost (some "{1}"))
        (some [("W", 3)])).1 = true ∧
    ¬ ((⟨5, 0, 0, 0, 0, 0⟩ : ManaPool).total -
        (pay_mana_cost ⟨5, 0, 0, 0, 0, 0⟩ (parse_mana_cost (some "{1}"))
          (some [("W", 3)])).2.1.total
        = coloredSum (parse_mana_cost (some "{1}"))
            + (parse_mana_cost (some "{1}")).generic) := by
  decide

/-- C1 witness: a concrete run of the amended atomicity theorem, paying
`\x7b1\x7d\x7bW\x7d` from a pool with `W=2, U=1` and no explicit allocation. -/
theorem pay_mana_cost_atomic_witness :
    CostNonneg (parse_mana_cost (some "{1}{W}")) ∧
    (((pay_mana_cost ⟨2, 1, 0, 0, 0, 0⟩ (parse_mana_cost (some "{1}{W}")) none).1 = false →
        (pay_mana_cost ⟨2, 1, 0, 0, 0, 0⟩ (parse_mana_cost (some "{1}{W}")) none).2.1
          = ⟨2, 1, 0, 0, 0, 0⟩) ∧
      ((pay_mana_cost ⟨2, 1, 0, 0, 0, 0⟩ (parse_mana_cost (some "{1}{W}")) none).1 = true →
        PoolLe (pay_mana_cost ⟨2, 1, 0, 0, 0, 0⟩ (parse_mana_cost (some "{1}{W}")) none).2.1
          { W := (2 : Int) - (parse_mana_cost (some "{1}{W}")).W
            U := (1 : Int) - (parse_mana_cost (some "{1}{W}")).U
            B := (0 : Int) - (parse_mana_cost (some "{1}{W}")).B
            R := (0 : Int) - (parse_mana_cost (some "{1}{W}")).R
            G := (0 : Int) - (parse_mana_cost (some "{1}{W}")).G
            C := (0 : Int) - (parse_mana_cost (some "{1}{W}")).C } ∧
        coloredSum (parse_mana_cost (some "{1}{W}")) + (parse_mana_cost (some "{1}{W}")).generic
          ≤ (⟨2, 1, 0, 0, 0, 0⟩ : ManaPool).total -
              (pay_mana_cost ⟨2, 1, 0, 0, 0, 0⟩ (parse_mana_cost (some "{1}{W}")) none).2.1.total ∧
        ((none : Option (List (String × Int))) = none →
          (⟨2, 1, 0, 0, 0, 0⟩ : ManaPool).total -
              (pay_mana_cost ⟨2, 1, 0, 0, 0, 0⟩ (parse_mana_cost (some "{1}{W}")) none).2.1.total
            = coloredSum (parse_mana_cost (some "{1}{W}"))
                + (parse_mana_cost (some "{1}{W}")).generic))) :=
  ⟨by decide,
    pay_mana_cost_atomic ⟨2, 1, 0, 0, 0, 0⟩ (parse_mana_cost (some "{1}{W}")) none (by decide)⟩

/-! ### Mana-pool non-negativity (claim C6) -/

lemma mem_assocSet {β : Type} {l : List (String × β)} {k : String} {v : β} :
    ∀ kv ∈ assocSet l k v, kv ∈ l ∨ kv = (k, v) := by
  induction l with
  | nil => intro kv hkv; simp [assocSet] at hkv; right; exact hkv
  | cons hd tl ih =>
    intro kv hkv
    simp only [assocSet] at hkv
    split_ifs at hkv with hh
    · rcases List.mem_cons.mp hkv with h | h
      · right; exact h
      · left; exact List.mem_cons_of_mem _ h
    · rcases List.mem_cons.mp hkv with h | h
      · left; exact h ▸ List.mem_cons_self _ _
      · rcases ih kv h with h' | h'
        · left; exact List.mem_cons_of_mem _ h'
        · right; exact h'

/-- C6 counterexample: `add_mana` accepts the client-supplied amount
unchecked, so `add_mana "W" (-1)` on an all-zero pool succeeds and
leaves `W = -1`: the operation drives a counter below zero. -/
theorem add_mana_negative_counterexample :
    PoolNonneg basePlayer.mana_pool ∧
    (GameActionHandler.add_mana basePlayer "W" (-1)).1 = true ∧
    ¬ PoolNonneg (GameActionHandler.add_mana basePlayer "W" (-1)).2.2.mana_pool := by
  decide

/-- C6 (amended): starting from a pool with non-negative counters,
`add_mana` with a non-negative amount, `remove_mana` with any amount
(subtraction clamps at zero), `tap_for_mana`, `clear_mana_pool`,
`pay_mana_cost` and `next_turn` all preserve non-negativity of every
counter; `add_mana` with a negative amount can violate it (see the
counterexample). -/
theorem mana_pool_nonneg_preserved (p : PlayerGameState) (color : String)
    (amount amount2 : Int) (iid : String) (cost : ParsedManaCost)
    (ga : Option (List (String × Int)))
    (h : PoolNonneg p.mana_pool) (hamt : 0 ≤ amount) :
    PoolNonneg (GameActionHandler.add_mana p color amount).2.2.mana_pool ∧
    PoolNonneg (GameActionHandler.remove_mana p color amount2).2.2.mana_pool ∧
    PoolNonneg (GameActionHandler.tap_for_mana p iid color).2.2.mana_pool ∧
    PoolNonneg (GameActionHandler.clear_mana_pool p).2.2.mana_pool ∧
    PoolNonneg (pay_mana_cost p.mana_pool cost ga).2.1 ∧
    (∀ (room : GameRoom) (uid : String),
      (∀ kv ∈ room.players, PoolNonneg kv.2.mana_pool) →
        ∀ kv ∈ (nextTurn room uid).2.2.players, PoolNonneg kv.2.mana_pool) := by
  have hget := get_nonneg h color
  have hv1 : 0 ≤ p.mana_pool.get color + amount := by omega
  have hv2 : 0 ≤ p.mana_pool.get color + 1 := by omega
  refine ⟨?_, ?_, ?_, ?_, ?_, ?_⟩
  · unfold GameActionHandler.add_mana
    split_ifs
    · exact set_nonneg h hv1
    · exact h
  · unfold GameActionHandler.remove_mana
    split_ifs
    · exact set_nonneg h (le_max_left 0 _)
    · exact h
  · unfold GameActionHandler.tap_for_mana
    cases splitFirst (fun c => c.instance_id = iid) p.battlefield with
    | none => exact h
    | some t =>
      rcases t with ⟨pre, card, post⟩
      dsimp only
      split_ifs
      · exact h
      · exact set_nonneg h hv2
  · exact (show PoolNonneg ({} : ManaPool) by decide)
  · exact pay_mana_cost_nonneg p.mana_pool cost ga h
  · intro room uid hall kv hkv
    unfold nextTurn at hkv
    split_ifs at hkv
    · exact hall kv hkv
    · dsimp only [advanceTurn] at hkv
      unfold untapClearActive at hkv
      split at hkv
      · dsimp only at hkv
        rcases mem_assocSet kv hkv with hmem | heq
        · exact hall kv hmem
        · rw [heq]
          exact (show PoolNonneg ({} : ManaPool) by decide)
      · exact hall kv hkv

/-- C6 witness: the amended non-negativity theorem at a concrete player,
color `W`, amounts `1`/`2`, cost `\x7b1\x7d` and no allocation. -/
theorem mana_pool_nonneg_preserved_witness :
    PoolNonneg basePlayer.mana_pool ∧ (0 : Int) ≤ 1 ∧
    (PoolNonneg (GameActionHandler.add_mana basePlayer "W" 1).2.2.mana_pool ∧
      PoolNonneg (GameActionHandler.remove_mana basePlayer "W" 2).2.2.mana_pool ∧
      PoolNonneg (GameActionHandler.tap_for_mana basePlayer "x" "W").2.2.mana_pool ∧
      PoolNonneg (GameActionHandler.clear_mana_pool basePlayer).2.2.mana_pool ∧
      PoolNonneg (pay_mana_cost basePlayer.mana_pool (parse_mana_cost (some "{1}")) none).2.1 ∧
      (∀ (room : GameRoom) (uid : String),
        (∀ kv ∈ room.players, PoolNonneg kv.2.mana_pool) →
          ∀ kv ∈ (nextTurn room uid).2.2.players, PoolNonneg kv.2.mana_pool)) :=
  ⟨by decide, by decide,
    mana_pool_nonneg_preserved basePlayer "W" 1 2 "x" (parse_mana_cost (some "{1}")) none
      (by decide) (by decide)⟩

/-! ### Zone exclusivity (claim C2) -/

lemma splitFirst_eq {α : Type} {q : α → Bool} :
    ∀ {l : List α} {pre post : List α} {x : α},
      splitFirst q l = some (pre, x, post) → l = pre ++ x :: post := by
  intro l
  induction l with
  | nil => intro pre post x h; simp [splitFirst] at h
  | cons hd tl ih =>
    intro pre post x h
    rw [splitFirst] at h
    split_ifs at h with hq
    · simp only [Option.some_inj, Prod.mk.injEq] at h
      rw [← h.1, ← h.2.1, ← h.2.2]
      rfl
    · cases hm : splitFirst q tl with
      | none => rw [hm] at h; simp at h
      | some t =>
        rcases t with ⟨pre', y, post'⟩
        rw [hm] at h
        simp only [Option.some_inj, Prod.mk.injEq] at h
        rw [← h.1, ← h.2.1, ← h.2.2, ih hm]
        rfl

lemma removeCardAux_none_eq {iid : String} {p : PlayerGameState} :
    ∀ {zs : List GameZone} {p₂ : PlayerGameState},
      removeCardAux iid p zs = (none, p₂) → p₂ = p := by
  intro zs
  induction zs with
  | nil =>
    intro p₂ h
    simp only [removeCardAux, Prod.mk.injEq] at h
    exact h.2.symm
  | cons z zs ih =>
    intro p₂ h
    rw [removeCardAux] at h
    split at h
    · simp at h
    · exact ih h

lemma setZone_remove_perm (p : PlayerGameState) (z : GameZone)
    (pre post : List GameCard) (x : GameCard) (h : p.getZone z = pre ++ x :: post) :
    (allIds p).Perm (x.instance_id :: allIds (p.setZone z (pre ++ post))) := by
  cases z <;>
    · dsimp only [PlayerGameState.getZone] at h
      dsimp only [PlayerGameState.setZone, allIds, allCards]
      rw [h]
      simp only [List.map_append, List.map_cons]
      rw [← Multiset.coe_eq_coe]
      simp only [← Multiset.coe_add, ← Multiset.cons_coe, ← Multiset.singleton_add]
      abel

lemma setZone_append_perm (p : PlayerGameState) (z : GameZone) (c : GameCard) :
    (allIds (p.setZone z (p.getZone z ++ [c]))).Perm (c.instance_id :: allIds p) := by
  cases z <;>
    · dsimp only [PlayerGameState.getZone, PlayerGameState.setZone, allIds, allCards]
      simp only [List.map_append, List.map_cons, List.map_nil]
      rw [← Multiset.coe_eq_coe]
      simp only [← Multiset.coe_add, ← Multiset.cons_coe, ← Multiset.singleton_add]
      abel

lemma removeCardAux_some_perm {iid : String} {p : PlayerGameState} :
    ∀ {zs : List GameZone} {card : GameCard} {p₂ : PlayerGameState},
      removeCardAux iid p zs = (some card, p₂) →
        (allIds p).Perm (card.instance_id :: allIds p₂) := by
  intro zs
  induction zs with
  | nil => intro card p₂ h; simp [removeCardAux] at h
  | cons z zs ih =>
    intro card p₂ h
    rw [removeCardAux] at h
    split at h
    · rename_i pre card' post heq
      simp only [Prod.mk.injEq, Option.some_inj] at h
      rw [← h.1, ← h.2]
      exact setZone_remove_perm p z pre post card' (splitFirst_eq heq)
    · exact ih h

lemma draw_card_perm (p : PlayerGameState) :
    (allIds (GameActionHandler.draw_card p).2.2).Perm (allIds p) := by
  unfold GameActionHandler.draw_card
  cases hl : p.library with
  | nil => exact List.Perm.refl _
  | cons c rest =>
    dsimp only [allIds, allCards]
    rw [hl]
    simp only [List.map_append, List.map_cons, List.map_nil]
    rw [← Multiset.coe_eq_coe]
    simp only [← Multiset.coe_add, ← Multiset.cons_coe, ← Multiset.singleton_add]
    abel

lemma drawLoop_perm : ∀ (n : Nat) (p : PlayerGameState),
    (allIds (GameActionHandler.drawLoop n p)).Perm (allIds p) := by
  intro n
  induction n with
  | zero => intro p; exact List.Perm.refl _
  | succ n ih =>
    intro p
    rw [GameActionHandler.drawLoop]
    cases hl : p.library with
    | nil => exact List.Perm.refl _
    | cons c rest =>
      refine (ih _).trans ?_
      dsimp only [allIds, allCards]
      rw [hl]
      simp only [List.map_append, List.map_cons, List.map_nil]
      rw [← Multiset.coe_eq_coe]
      simp only [← Multiset.coe_add, ← Multiset.cons_coe, ← Multiset.singleton_add]
      abel

lemma draw_opening_hand_perm (p : PlayerGameState) :
    (allIds (GameActionHandler.draw_opening_hand p).2.2).Perm (allIds p) := by
  unfold GameActionHandler.draw_opening_hand
  dsimp only
  exact drawLoop_perm (min (7 - p.mulligan_count) p.library.length) p

lemma millLoop_perm : ∀ (n : Nat) (p : PlayerGameState),
    (allIds (GameActionHandler.millLoop n p)).Perm (allIds p) := by
  intro n
  induction n with
  | zero => intro p; exact List.Perm.refl _
  | succ n ih =>
    intro p
    rw [GameActionHandler.millLoop]
    cases hl : p.library with
    | nil => exact List.Perm.refl _
    | cons c rest =>
      refine (ih _).trans ?_
      dsimp only [allIds, allCards]
      rw [hl]
      simp only [List.map_append, List.map_cons, List.map_nil]
      rw [← Multiset.coe_eq_coe]
      simp only [← Multiset.coe_add, ← Multiset.cons_coe, ← Multiset.singleton_add]
      abel

lemma mulligan_perm (shuffle : List GameCard → List GameCard)
    (hs : ∀ l, (shuffle l).Perm l) (p : PlayerGameState) :
    (allIds (GameActionHandler.mulligan shuffle p).2.2).Perm (allIds p) := by
  unfold GameActionHandler.mulligan
  split_ifs with hm
  · exact List.Perm.refl _
  · dsimp only
    refine (draw_opening_hand_perm _).trans ?_
    dsimp only [allIds, allCards]
    have hmap : ∀ l : List GameCard,
        (l.map (fun c => { c with zone := GameZone.library })).map GameCard.instance_id
          = l.map GameCard.instance_id := by
      intro l; rw [List.map_map]; rfl
    have h2 : (List.map GameCard.instance_id
          (shuffle (p.library ++ p.hand.map (fun c => { c with zone := GameZone.library })))).Perm
        (List.map GameCard.instance_id p.library ++ List.map GameCard.instance_id p.hand) := by
      have := (hs (p.library ++ p.hand.map
        (fun c => { c with zone := GameZone.library }))).map GameCard.instance_id
      rw [List.map_append, hmap] at this
      exact this
    have h5 := (Multiset.coe_eq_coe.mpr h2).trans (Multiset.coe_add _ _).symm
    simp only [List.map_append, List.map_nil]
    rw [← Multiset.coe_eq_coe]
    simp only [← Multiset.coe_add, ← Multiset.cons_coe, ← Multiset.singleton_add,
      Multiset.coe_nil]
    rw [h5]
    abel

lemma play_card_perm (p : PlayerGameState) (iid : String) :
    (allIds (GameActionHandler.play_card p iid).2.2).Perm (allIds p) := by
  unfold GameActionHandler.play_card
  cases hsp : splitFirst (fun c => c.instance_id = iid) p.hand with
  | none => exact List.Perm.refl _
  | some t =>
    rcases t with ⟨pre, card, post⟩
    have he := splitFirst_eq hsp
    dsimp only [allIds, allCards]
    rw [he]
    simp only [List.map_append, List.map_cons, List.map_nil]
    rw [← Multiset.coe_eq_coe]
    simp only [← Multiset.coe_add, ← Multiset.cons_coe, ← Multiset.singleton_add]
    abel

lemma discard_card_perm (p : PlayerGameState) (iid : String) :
    (allIds (GameActionHandler.discard_card p iid).2.2).Perm (allIds p) := by
  unfold GameActionHandler.discard_card
  cases hsp : splitFirst (fun c => c.instance_id = iid) p.hand with
  | none => exact List.Perm.refl _
  | some t =>
    rcases t with ⟨pre, card, post⟩
    have he := splitFirst_eq hsp
    dsimp only [allIds, allCards]
    rw [he]
    simp only [List.map_append, List.map_cons, List.map_nil]
    rw [← Multiset.coe_eq_coe]
    simp only [← Multiset.coe_add, ← Multiset.cons_coe, ← Multiset.singleton_add]
    abel

lemma move_card_perm (p : PlayerGameState) (iid : String) (z : GameZone) :
    (allIds (GameActionHandler.move_card p iid z).2.2).Perm (allIds p) := by
  unfold GameActionHandler.move_card
  rcases hrc : p.remove_card iid with ⟨o, p'⟩
  cases o with
  | none => exact List.Perm.refl _
  | some card =>
    dsimp only
    have hperm : (allIds p).Perm (card.instance_id :: allIds p') :=
      removeCardAux_some_perm hrc
    have happ := setZone_append_perm p' z
      (if z = GameZone.hand ∨ z = GameZone.library then
        { card with zone := z, is_tapped := false }
      else { card with zone := z })
    have hid : (if z = GameZone.hand ∨ z = GameZone.library then
        { card with zone := z, is_tapped := false }
      else { card with zone := z }).instance_id = card.instance_id := by
      split_ifs <;> rfl
    rw [hid] at happ
    exact happ.trans (hperm.symm)

/-- C2: every zone-changing action (`draw_card`, `play_card`,
`move_card`, `discard_card`, `mill`, `mulligan`, `draw_opening_hand`)
permutes the combined list of card-instance ids across the six zones —
each move is remove-then-append, never a copy — and therefore preserves
the invariant that the combined id list has no duplicates, i.e. that
every card instance appears in exactly one zone list. -/
theorem zone_exclusivity_preserved (p : PlayerGameState)
    (shuffle : List GameCard → List GameCard) (hs : ∀ l, (shuffle l).Perm l)
    (iid : String) (z : GameZone) (cnt : Int)
    (h : (allIds p).Nodup) :
    ((allIds (GameActionHandler.draw_card p).2.2).Perm (allIds p) ∧
      (allIds (GameActionHandler.draw_card p).2.2).Nodup) ∧
    ((allIds (GameActionHandler.play_card p iid).2.2).Perm (allIds p) ∧
      (allIds (GameActionHandler.play_card p iid).2.2).Nodup) ∧
    ((allIds (GameActionHandler.move_card p iid z).2.2).Perm (allIds p) ∧
      (allIds (GameActionHandler.move_card p iid z).2.2).Nodup) ∧
    ((allIds (GameActionHandler.discard_card p iid).2.2).Perm (allIds p) ∧
      (allIds (GameActionHandler.discard_card p iid).2.2).Nodup) ∧
    ((allIds (GameActionHandler.mill p cnt).2.2).Perm (allIds p) ∧
      (allIds (GameActionHandler.mill p cnt).2.2).Nodup) ∧
    ((allIds (GameActionHandler.mulligan shuffle p).2.2).Perm (allIds p) ∧
      (allIds (GameActionHandler.mulligan shuffle p).2.2).Nodup) ∧
    ((allIds (GameActionHandler.draw_opening_hand p).2.2).Perm (allIds p) ∧
      (allIds (GameActionHandler.draw_opening_hand p).2.2).Nodup) := by
  have h1 := draw_card_perm p
  have h2 := play_card_perm p iid
  have h3 := move_card_perm p iid z
  have h4 := discard_card_perm p iid
  have h5 : (allIds (GameActionHandler.mill p cnt).2.2).Perm (allIds p) :=
    millLoop_perm (min cnt (p.library.length : Int)).toNat p
  have h6 := mulligan_perm shuffle hs p
  have h7 := draw_opening_hand_perm p
  exact ⟨⟨h1, h1.nodup_iff.mpr h⟩, ⟨h2, h2.nodup_iff.mpr h⟩, ⟨h3, h3.nodup_iff.mpr h⟩,
    ⟨h4, h4.nodup_iff.mpr h⟩, ⟨h5, h5.nodup_iff.mpr h⟩, ⟨h6, h6.nodup_iff.mpr h⟩,
    ⟨h7, h7.nodup_iff.mpr h⟩⟩

/-- C2 witness: the zone-exclusivity theorem at a concrete player with
three cards, identity shuffle, moving card `c3` to the graveyard. -/
theorem zone_exclusivity_preserved_witness :
    (allIds demoPlayer).Nodup ∧
    (((allIds (GameActionHandler.draw_card demoPlayer).2.2).Perm (allIds demoPlayer) ∧
        (allIds (GameActionHandler.draw_card demoPlayer).2.2).Nodup) ∧
      ((allIds (GameActionHandler.play_card demoPlayer "c3").2.2).Perm (allIds demoPlayer) ∧
        (allIds (GameActionHandler.play_card demoPlayer "c3").2.2).Nodup) ∧
      ((allIds (GameActionHandler.move_card demoPlayer "c3" .graveyard).2.2).Perm
          (allIds demoPlayer) ∧
        (allIds (GameActionHandler.move_card demoPlayer "c3" .graveyard).2.2).Nodup) ∧
      ((allIds (GameActionHandler.discard_card demoPlayer "c3").2.2).Perm (allIds demoPlayer) ∧
        (allIds (GameActionHandler.discard_card demoPlayer "c3").2.2).Nodup) ∧
      ((allIds (GameActionHandler.mill demoPlayer 1).2.2).Perm (allIds demoPlayer) ∧
        (allIds (GameActionHandler.mill demoPlayer 1).2.2).Nodup) ∧
      ((allIds (GameActionHandler.mulligan id demoPlayer).2.2).Perm (allIds demoPlayer) ∧
        (allIds (GameActionHandler.mulligan id demoPlayer).2.2).Nodup) ∧
      ((allIds (GameActionHandler.draw_opening_hand demoPlayer).2.2).Perm (allIds demoPlayer) ∧
        (allIds (GameActionHandler.draw_opening_hand demoPlayer).2.2).Nodup)) :=
  ⟨by decide,
    zone_exclusivity_preserved demoPlayer id (fun l => List.Perm.refl l) "c3" .graveyard 1
      (by decide)⟩

/-! ### Mulligan (claim C4) -/

lemma drawLoop_state : ∀ (n : Nat) (p : PlayerGameState), n ≤ p.library.length →
    (GameActionHandler.drawLoop n p).hand.length = p.hand.length + n ∧
    (GameActionHandler.drawLoop n p).library.length = p.library.length - n ∧
    (GameActionHandler.drawLoop n p).mulligan_count = p.mulligan_count := by
  intro n
  induction n with
  | zero =>
    intro p _
    refine ⟨rfl, ?_, rfl⟩
    show p.library.length = p.library.length - 0
    omega
  | succ n ih =>
    intro p h
    rw [GameActionHandler.drawLoop]
    cases hl : p.library with
    | nil => rw [hl] at h; simp at h
    | cons c rest =>
      dsimp only
      rw [hl] at h
      simp only [List.length_cons] at h
      have hrec := ih
        { p with library := rest, hand := p.hand ++ [{ c with zone := .hand }] }
        (by dsimp only; omega)
      rcases hrec with ⟨e1, e2, e3⟩
      simp only [List.length_append, List.length_cons, List.length_nil] at e1 e2
      dsimp only at e3
      simp only [List.length_cons]
      exact ⟨by omega, by omega, e3⟩

lemma draw_opening_spec (p : PlayerGameState) :
    (GameActionHandler.draw_opening_hand p).1 = true ∧
    (GameActionHandler.draw_opening_hand p).2.1 = none ∧
    (GameActionHandler.draw_opening_hand p).2.2.hand.length
      = p.hand.length + min (7 - p.mulligan_count) p.library.length ∧
    (GameActionHandler.draw_opening_hand p).2.2.library.length
      = p.library.length - min (7 - p.mulligan_count) p.library.length ∧
    (GameActionHandler.draw_opening_hand p).2.2.mulligan_count = p.mulligan_count ∧
    (GameActionHandler.draw_opening_hand p).2.2.has_drawn_opening = true := by
  unfold GameActionHandler.draw_opening_hand
  dsimp only
  have := drawLoop_state (min (7 - p.mulligan_count) p.library.length) p
    (min_le_right _ _)
  exact ⟨rfl, rfl, this.1, this.2.1, this.2.2, rfl⟩

/-- C4: `mulligan` fails (leaving the player unchanged) exactly when
six mulligans are already taken; otherwise it succeeds, returns the
hand to the library, reshuffles, increments the count, and immediately
draws a fresh opening hand of `7 − new_count` cards bounded by the
post-return library size, conserving the total card count — so with at
least seven cards in library+hand the new hand holds `7 − new_count`
cards. -/
theorem mulligan_spec (shuffle : List GameCard → List GameCard)
    (hs : ∀ l, (shuffle l).Perm l) (p : PlayerGameState) :
    (p.mulligan_count ≥ 6 →
      GameActionHandler.mulligan shuffle p = (false, some "Cannot mulligan further", p)) ∧
    (p.mulligan_count < 6 →
      (GameActionHandler.mulligan shuffle p).1 = true ∧
      (GameActionHandler.mulligan shuffle p).2.2.mulligan_count = p.mulligan_count + 1 ∧
      (GameActionHandler.mulligan shuffle p).2.2.hand.length
        = min (7 - (p.mulligan_count + 1)) (p.library.length + p.hand.length) ∧
      (7 ≤ p.library.length + p.hand.length →
        (GameActionHandler.mulligan shuffle p).2.2.hand.length
          = 7 - (p.mulligan_count + 1)) ∧
      (GameActionHandler.mulligan shuffle p).2.2.has_drawn_opening = true ∧
      (GameActionHandler.mulligan shuffle p).2.2.library.length
          + (GameActionHandler.mulligan shuffle p).2.2.hand.length
        = p.library.length + p.hand.length) := by
  unfold GameActionHandler.mulligan
  split_ifs with hm
  · exact ⟨fun _ => rfl, fun hlt => absurd hm (by omega)⟩
  · refine ⟨fun h6 => absurd h6 hm, fun _ => ?_⟩
    dsimp only
    have hlen : (shuffle (p.library ++ p.hand.map
        (fun c => { c with zone := GameZone.library }))).length
        = p.library.length + p.hand.length := by
      rw [(hs _).length_eq]
      simp
    have hspec := draw_opening_spec
      { p with
        library := shuffle (p.library ++ p.hand.map
          (fun c => { c with zone := GameZone.library }))
        hand := []
        mulligan_count := p.mulligan_count + 1 }
    rcases hspec with ⟨_, _, e3, e4, e5, e6⟩
    dsimp only at e3 e4 e5
    rw [hlen] at e3 e4
    simp only [List.length_nil] at e3
    refine ⟨rfl, e5, by omega, by intro h7; omega, e6, by omega⟩

/-- C4 witness: mulligan with the identity shuffle on a player holding
two library cards and one hand card, no previous mulligans. -/
theorem mulligan_spec_witness :
    (demoPlayer.mulligan_count ≥ 6 →
      GameActionHandler.mulligan id demoPlayer
        = (false, some "Cannot mulligan further", demoPlayer)) ∧
    (demoPlayer.mulligan_count < 6 →
      (GameActionHandler.mulligan id demoPlayer).1 = true ∧
      (GameActionHandler.mulligan id demoPlayer).2.2.mulligan_count
        = demoPlayer.mulligan_count + 1 ∧
      (GameActionHandler.mulligan id demoPlayer).2.2.hand.length
        = min (7 - (demoPlayer.mulligan_count + 1))
            (demoPlayer.library.length + demoPlayer.hand.length) ∧
      (7 ≤ demoPlayer.library.length + demoPlayer.hand.length →
        (GameActionHandler.mulligan id demoPlayer).2.2.hand.length
          = 7 - (demoPlayer.mulligan_count + 1)) ∧
      (GameActionHandler.mulligan id demoPlayer).2.2.has_drawn_opening = true ∧
      (GameActionHandler.mulligan id demoPlayer).2.2.library.length
          + (GameActionHandler.mulligan id demoPlayer).2.2.hand.length
        = demoPlayer.library.length + demoPlayer.hand.length) :=
  mulligan_spec id (fun l => List.Perm.refl l) demoPlayer

/-! ### Turn advancement (claim C3) -/

lemma assocGet_assocSet_self {β : Type} :
    ∀ (l : List (String × β)) (k : String) (v : β),
      assocGet (assocSet l k v) k = some v := by
  intro l
  induction l with
  | nil => intro k v; simp [assocSet, assocGet]
  | cons kv rest ih =>
    intro k v
    rw [assocSet]
    split_ifs with h
    · simp [assocGet]
    · rw [assocGet]
      rw [if_neg h]
      exact ih k v

lemma assocGet_assocSet_ne {β : Type} :
    ∀ (l : List (String × β)) (k k' : String) (v : β), k' ≠ k →
      assocGet (assocSet l k v) k' = assocGet l k' := by
  intro l
  induction l with
  | nil =>
    intro k k' v h
    rw [assocSet, assocGet]
    rw [assocGet]
    split_ifs with hc
    · exact absurd hc.symm h
    · rfl
  | cons kv rest ih =>
    intro k k' v h
    rw [assocSet]
    split_ifs with hk
    · rw [assocGet, assocGet]
      rw [if_neg (fun he => h he.symm), if_neg (fun he => h (he.symm.trans hk))]
    · rw [assocGet, assocGet]
      split_ifs with h2
      · rfl
      · exact ih k k' v h

lemma untapClearActive_fields (room : GameRoom) :
    (untapClearActive room).turn_order = room.turn_order ∧
    (untapClearActive room).active_player_id = room.active_player_id ∧
    (untapClearActive room).turn_number = room.turn_number ∧
    (untapClearActive room).phase = room.phase ∧
    (untapClearActive room).started = room.started ∧
    (untapClearActive room).history = room.history := by
  unfold untapClearActive
  split <;> exact ⟨rfl, rfl, rfl, rfl, rfl, rfl⟩

lemma currentIdx_untapClear (room : GameRoom) :
    currentIdx (untapClearActive room) = currentIdx room := by
  unfold currentIdx
  rw [(untapClearActive_fields room).2.1, (untapClearActive_fields room).1]

/-- C3: with a non-empty turn order, `next_turn` succeeds (for any
initiating player — the result does not depend on who calls it):
it untaps every battlefield card and zeroes the mana pool of the
outgoing active player when that player is seated, leaves every other
player untouched, advances the active player cyclically through
`turn_order` (wrapping past the end to index 0), increments the turn
number by exactly 1, and sets the untap phase; with an empty turn
order it fails with "No turn order set" and changes nothing. -/
theorem next_turn_spec (room : GameRoom) (uid uid2 : String) :
    (room.turn_order = [] →
      nextTurn room uid = (false, some "No turn order set", room)) ∧
    nextTurn room uid = nextTurn room uid2 ∧
    (room.turn_order ≠ [] →
      (nextTurn room uid).1 = true ∧
      (nextTurn room uid).2.2.turn_number = room.turn_number + 1 ∧
      (nextTurn room uid).2.2.phase = GamePhase.untap ∧
      (nextTurn room uid).2.2.turn_order = room.turn_order ∧
      (∀ a, room.active_player_id = some a → a ∈ room.turn_order →
        (nextTurn room uid).2.2.active_player_id
          = room.turn_order[(room.turn_order.indexOf a + 1) % room.turn_order.length]?) ∧
      (∀ a ap, room.active_player_id = some a →
        assocGet room.players a = some ap →
          assocGet (nextTurn room uid).2.2.players a
            = some { ap with
                battlefield := ap.battlefield.map (fun c => { c with is_tapped := false })
                mana_pool := {} }) ∧
      (∀ pid, pid ≠ room.active_player_id.getD "" →
        assocGet (nextTurn room uid).2.2.players pid = assocGet room.players pid)) := by
  refine ⟨?_, rfl, ?_⟩
  · intro h0
    unfold nextTurn
    rw [if_pos (by simp [h0])]
  · intro hne
    unfold nextTurn
    rw [if_neg (by simp [hne])]
    dsimp only [advanceTurn]
    obtain ⟨f1, f2, f3, f4, _, _⟩ := untapClearActive_fields room
    refine ⟨rfl, by rw [f3], rfl, f1, ?_, ?_, ?_⟩
    · intro a ha hmem
      have hidx : currentIdx (untapClearActive room) = (room.turn_order.indexOf a : Int) := by
        rw [currentIdx_untapClear]
        unfold currentIdx
        rw [ha]
        dsimp only
        rw [if_pos hmem]
      rw [f1, hidx]
      have hcast : (((room.turn_order.indexOf a : Int) + 1)
          % (room.turn_order.length : Int)).toNat
          = (room.turn_order.indexOf a + 1) % room.turn_order.length := by
        have h1 : ((room.turn_order.indexOf a + 1 : Nat) : Int)
            = (room.turn_order.indexOf a : Int) + 1 := by push_cast; ring
        rw [← h1, ← Int.natCast_mod]
        exact Int.toNat_natCast _
      rw [hcast]
    · intro a ap ha hap
      unfold untapClearActive
      rw [ha]
      dsimp only [Option.getD]
      rw [hap]
      dsimp only
      exact assocGet_assocSet_self _ _ _
    · intro pid hpid
      unfold untapClearActive
      cases hact : assocGet room.players (room.active_player_id.getD "") with
      | none => rfl
      | some ap =>
        dsimp only
        exact assocGet_assocSet_ne _ _ _ _ hpid

/-- C3 witness: in the `[A,B,C]` room with active player `B`, player
`C` advancing the turn succeeds, bumps the turn number, moves the
active player to the entry after `B` (index formula), and untaps/clears
`B`. -/
theorem next_turn_spec_witness :
    (nextTurn demoRoom "C").1 = true ∧
    (nextTurn demoRoom "C").2.2.turn_number = demoRoom.turn_number + 1 ∧
    (nextTurn demoRoom "C").2.2.active_player_id
      = demoRoom.turn_order[(demoRoom.turn_order.indexOf "B" + 1)
          % demoRoom.turn_order.length]? ∧
    assocGet (nextTurn demoRoom "C").2.2.players "B"
      = some { namedPlayer "B" with
          battlefield := (namedPlayer "B").battlefield.map (fun c => { c with is_tapped := false })
          mana_pool := {} } := by
  have h := (next_turn_spec demoRoom "C" "A").2.2 (by decide)
  exact ⟨h.1, h.2.1, h.2.2.2.2.1 "B" (by decide) (by decide),
    h.2.2.2.2.2.1 "B" (namedPlayer "B") (by decide) (by decide)⟩

/-! ### Per-viewer redaction (claim C5) -/

/-- C5: the projection a room builds for a seated viewer pairs each
seated player (in order) with a view in which the public zones
(battlefield, graveyard, exile, command) are serialized in full for
everyone; the viewer's own hand and library are serialized in full with
no count fields; and every other player's hand and library are empty
lists accompanied by count fields equal to the true zone sizes. -/
theorem redaction_spec (room : GameRoom) (v : String)
    (_hv : v ∈ room.players.map (fun kv => kv.1)) :
    List.Forall₂ (fun (kv : String × PlayerGameState) (view : PlayerView) =>
        view.battlefield = kv.2.battlefield ∧ view.graveyard = kv.2.graveyard ∧
        view.exile = kv.2.exile ∧ view.command = kv.2.command ∧
        view.life = kv.2.life ∧ view.manaPool = kv.2.mana_pool ∧
        (kv.1 = v → view.hand = kv.2.hand ∧ view.library = kv.2.library ∧
          view.hand_count = none ∧ view.library_count = none) ∧
        (kv.1 ≠ v → view.hand = [] ∧ view.library = [] ∧
          view.hand_count = some kv.2.hand.length ∧
          view.library_count = some kv.2.library.length))
      room.players (room.to_dict (some v)).players := by
  unfold GameRoom.to_dict
  dsimp only
  rw [List.forall₂_map_right_iff, List.forall₂_same]
  intro kv _
  by_cases hc : kv.1 = v
  · simp only [hc, decide_eq_true_eq, PlayerGameState.to_dict]
    rw [if_pos (by simp)]
    exact ⟨rfl, rfl, rfl, rfl, rfl, rfl, fun _ => ⟨rfl, rfl, rfl, rfl⟩,
      fun hne => absurd rfl hne⟩
  · simp only [decide_eq_true_eq, PlayerGameState.to_dict]
    rw [if_neg (by simpa using hc)]
    exact ⟨rfl, rfl, rfl, rfl, rfl, rfl, fun he => absurd he hc,
      fun _ => ⟨rfl, rfl, rfl, rfl⟩⟩

/-- C5 witness: the redaction theorem for viewer `B` in the three-player
demo room. -/
theorem redaction_spec_witness :
    List.Forall₂ (fun (kv : String × PlayerGameState) (view : PlayerView) =>
        view.battlefield = kv.2.battlefield ∧ view.graveyard = kv.2.graveyard ∧
        view.exile = kv.2.exile ∧ view.command = kv.2.command ∧
        view.life = kv.2.life ∧ view.manaPool = kv.2.mana_pool ∧
        (kv.1 = "B" → view.hand = kv.2.hand ∧ view.library = kv.2.library ∧
          view.hand_count = none ∧ view.library_count = none) ∧
        (kv.1 ≠ "B" → view.hand = [] ∧ view.library = [] ∧
          view.hand_count = some kv.2.hand.length ∧
          view.library_count = some kv.2.library.length))
      demoRoom.players (demoRoom.to_dict (some "B")).players :=
  redaction_spec demoRoom "B" (by decide)

/-! ### Pre-game keep_hand and automatic start (claim C8) -/

lemma assocSet_get_self {β : Type} :
    ∀ (l : List (String × β)) (k : String) (v : β),
      assocGet l k = some v → assocSet l k v = l := by
  intro l
  induction l with
  | nil => intro k v h; simp [assocGet] at h
  | cons kv rest ih =>
    intro k v h
    rw [assocGet] at h
    rw [assocSet]
    split_ifs with hk
    · rw [if_pos hk] at h
      have : kv = (k, v) := by
        rcases kv with ⟨a, b⟩
        simp only [Option.some_inj] at h
        simp only at hk
        rw [hk, h]
      rw [this]
    · rw [if_neg hk] at h
      rw [ih k v h]

lemma assocSet_keys {β : Type} :
    ∀ (l : List (String × β)) (k : String) (v w : β),
      assocGet l k = some w →
        (assocSet l k v).map (fun kv => kv.1) = l.map (fun kv => kv.1) := by
  intro l
  induction l with
  | nil => intro k v w h; simp [assocGet] at h
  | cons kv rest ih =>
    intro k v w h
    rw [assocGet] at h
    rw [assocSet]
    split_ifs with hk
    · simp only [List.map_cons]
      rw [hk]
    · simp only [List.map_cons]
      rw [ih k v w (by rw [if_neg hk] at h; exact h)]

/-- C8: in a not-yet-started room, `keep_hand` submitted by a seated
player always succeeds and sets that player's ready flag; if afterwards
every seated player is ready and the seated count meets the room
minimum, the game starts as a side effect — `turn_order` becomes a
permutation of the seated player ids, the active player is its first
entry, the turn number is 1, the phase is the first main phase, and
`started` flips; otherwise only the ready flag changes. -/
theorem keep_hand_starts_game (shuffle : List GameCard → List GameCard)
    (permIds : List String → List String) (hperm : ∀ l, (permIds l).Perm l)
    (newId : String) (ts : Int) (room : GameRoom) (uid : String)
    (player : PlayerGameState) (act : ActionMsg)
    (hns : room.started = false)
    (hp : assocGet room.players uid = some player)
    (ha : act.action = some "keep_hand") :
    (handle_action shuffle permIds newId ts room uid act).1 = .ok true none ∧
    assocGet (handle_action shuffle permIds newId ts room uid act).2.players uid
      = some { player with is_ready := true } ∧
    ((assocSet room.players uid { player with is_ready := true }).all
          (fun kv => kv.2.is_ready) = true ∧
        room.min_players ≤ (assocSet room.players uid { player with is_ready := true }).length →
      (handle_action shuffle permIds newId ts room uid act).2.started = true ∧
      ((handle_action shuffle permIds newId ts room uid act).2.turn_order).Perm
        (room.players.map (fun kv => kv.1)) ∧
      (handle_action shuffle permIds newId ts room uid act).2.active_player_id
        = (handle_action shuffle permIds newId ts room uid act).2.turn_order[0]? ∧
      (handle_action shuffle permIds newId ts room uid act).2.turn_number = 1 ∧
      (handle_action shuffle permIds newId ts room uid act).2.phase = GamePhase.main1) ∧
    (¬ ((assocSet room.players uid { player with is_ready := true }).all
          (fun kv => kv.2.is_ready) = true ∧
        room.min_players ≤ (assocSet room.players uid { player with is_ready := true }).length) →
      (handle_action shuffle permIds newId ts room uid act).2
        = { room with players := assocSet room.players uid { player with is_ready := true } }) := by
  unfold handle_action
  rw [hp]
  dsimp only
  rw [if_pos (by simp [hns])]
  unfold preGame
  rw [ha]
  dsimp only [Option.getD]
  rw [if_neg (by decide), if_pos rfl]
  unfold GameActionHandler.keep_hand liftPlayer
  dsimp only
  rw [if_pos rfl]
  by_cases hcond : (assocSet room.players uid { player with is_ready := true }).all
      (fun kv => kv.2.is_ready) = true ∧
      room.min_players ≤ (assocSet room.players uid { player with is_ready := true }).length
  · rw [if_pos (by simp only [Bool.and_eq_true, decide_eq_true_eq]; exact ⟨hcond.1, hcond.2⟩)]
    unfold start_game
    rw [if_neg (by simp [hns]), if_neg (by dsimp only; omega),
      if_neg (by dsimp only; simp [hcond.1])]
    dsimp only
    refine ⟨rfl, assocGet_assocSet_self _ _ _, fun _ => ⟨rfl, ?_, rfl, rfl, rfl⟩,
      fun hn => absurd hcond hn⟩
    rw [assocSet_keys room.players uid { player with is_ready := true } player hp]
    exact hperm _
  · rw [if_neg (by simp only [Bool.and_eq_true, decide_eq_true_eq]; exact fun hc => hcond ⟨hc.1, hc.2⟩)]
    exact ⟨rfl, assocGet_assocSet_self _ _ _, fun hc => absurd hc hcond, fun _ => rfl⟩

/-- C8 witness: in the two-player lobby where `A` is ready, `B`
keeping their hand succeeds and auto-starts the game with a permuted
turn order, turn number 1 and the first main phase. -/
theorem keep_hand_starts_game_witness :
    (handle_action id id "h1" 0 lobbyRoom "B" { action := some "keep_hand" }).1
      = .ok true none ∧
    (handle_action id id "h1" 0 lobbyRoom "B" { action := some "keep_hand" }).2.started = true ∧
    ((handle_action id id "h1" 0 lobbyRoom "B"
        { action := some "keep_hand" }).2.turn_order).Perm
      (lobbyRoom.players.map (fun kv => kv.1)) ∧
    (handle_action id id "h1" 0 lobbyRoom "B" { action := some "keep_hand" }).2.turn_number = 1 ∧
    (handle_action id id "h1" 0 lobbyRoom "B" { action := some "keep_hand" }).2.phase
      = GamePhase.main1 := by
  have h := keep_hand_starts_game id id (fun l => List.Perm.refl l) "h1" 0 lobbyRoom "B"
    (namedPlayer "B") { action := some "keep_hand" } (by decide) (by decide) rfl
  have hc := h.2.2.1 (by decide)
  exact ⟨h.1, hc.1, hc.2.1, hc.2.2.2.1, hc.2.2.2.2⟩

/-! ### Rejected actions leave the room unchanged (claim C7) -/

lemma draw_card_fail (p : PlayerGameState) :
    (GameActionHandler.draw_card p).1 = false → (GameActionHandler.draw_card p).2.2 = p := by
  unfold GameActionHandler.draw_card
  cases p.library with
  | nil => intro _; rfl
  | cons c rest => intro h; simp at h

lemma play_card_fail (p : PlayerGameState) (iid : String) :
    (GameActionHandler.play_card p iid).1 = false →
      (GameActionHandler.play_card p iid).2.2 = p := by
  unfold GameActionHandler.play_card
  cases splitFirst (fun c => c.instance_id = iid) p.hand with
  | none => intro _; rfl
  | some t => rcases t with ⟨pre, card, post⟩; intro h; simp at h

lemma move_card_fail (p : PlayerGameState) (iid : String) (z : GameZone) :
    (GameActionHandler.move_card p iid z).1 = false →
      (GameActionHandler.move_card p iid z).2.2 = p := by
  unfold GameActionHandler.move_card
  rcases p.remove_card iid with ⟨o, p₂⟩
  cases o with
  | none => intro _; rfl
  | some card => intro h; simp at h

lemma discard_card_fail (p : PlayerGameState) (iid : String) :
    (GameActionHandler.discard_card p iid).1 = false →
      (GameActionHandler.discard_card p iid).2.2 = p := by
  unfold GameActionHandler.discard_card
  cases splitFirst (fun c => c.instance_id = iid) p.hand with
  | none => intro _; rfl
  | some t => rcases t with ⟨pre, card, post⟩; intro h; simp at h

lemma tap_card_fail (p : PlayerGameState) (iid : String) :
    (GameActionHandler.tap_card p iid).1 = false →
      (GameActionHandler.tap_card p iid).2.2 = p := by
  unfold GameActionHandler.tap_card
  cases splitFirst (fun c => c.instance_id = iid) p.battlefield with
  | none => intro _; rfl
  | some t => rcases t with ⟨pre, card, post⟩; intro h; simp at h

lemma tap_for_mana_fail (p : PlayerGameState) (iid color : String) :
    (GameActionHandler.tap_for_mana p iid color).1 = false →
      (GameActionHandler.tap_for_mana p iid color).2.2 = p := by
  unfold GameActionHandler.tap_for_mana
  cases splitFirst (fun c => c.instance_id = iid) p.battlefield with
  | none => intro _; rfl
  | some t =>
    rcases t with ⟨pre, card, post⟩
    dsimp only
    split_ifs
    · intro _; rfl
    · intro h; simp at h

lemma untap_all_fail (p : PlayerGameState) :
    (GameActionHandler.untap_all p).1 = false → (GameActionHandler.untap_all p).2.2 = p := by
  intro h; simp [GameActionHandler.untap_all] at h

lemma add_mana_fail (p : PlayerGameState) (color : String) (amount : Int) :
    (GameActionHandler.add_mana p color amount).1 = false →
      (GameActionHandler.add_mana p color amount).2.2 = p := by
  unfold GameActionHandler.add_mana
  split_ifs <;> simp_all

lemma remove_mana_fail (p : PlayerGameState) (color : String) (amount : Int) :
    (GameActionHandler.remove_mana p color amount).1 = false →
      (GameActionHandler.remove_mana p color amount).2.2 = p := by
  unfold GameActionHandler.remove_mana
  split_ifs <;> simp_all

lemma clear_mana_pool_fail (p : PlayerGameState) :
    (GameActionHandler.clear_mana_pool p).1 = false →
      (GameActionHandler.clear_mana_pool p).2.2 = p := by
  intro h; simp [GameActionHandler.clear_mana_pool] at h

lemma shuffle_library_fail (shuffle : List GameCard → List GameCard) (p : PlayerGameState) :
    (GameActionHandler.shuffle_library shuffle p).1 = false →
      (GameActionHandler.shuffle_library shuffle p).2.2 = p := by
  intro h; simp [GameActionHandler.shuffle_library] at h

lemma mill_fail (p : PlayerGameState) (count : Int) :
    (GameActionHandler.mill p count).1 = false →
      (GameActionHandler.mill p count).2.2 = p := by
  intro h; simp [GameActionHandler.mill] at h

lemma update_life_fail (p : PlayerGameState) (change : Int) :
    (GameActionHandler.update_life p change).1 = false →
      (GameActionHandler.update_life p change).2.2 = p := by
  intro h; simp [GameActionHandler.update_life] at h

lemma add_counter_fail (p : PlayerGameState) (iid ct : String) :
    (GameActionHandler.add_counter p iid ct).1 = false →
      (GameActionHandler.add_counter p iid ct).2.2 = p := by
  unfold GameActionHandler.add_counter
  cases splitFirst (fun c => c.instance_id = iid) p.battlefield with
  | none => intro _; rfl
  | some t => rcases t with ⟨pre, card, post⟩; intro h; simp at h

lemma remove_counter_fail (p : PlayerGameState) (iid ct : String) :
    (GameActionHandler.remove_counter p iid ct).1 = false →
      (GameActionHandler.remove_counter p iid ct).2.2 = p := by
  unfold GameActionHandler.remove_counter
  cases splitFirst (fun c => c.instance_id = iid) p.battlefield with
  | none => intro _; rfl
  | some t => rcases t with ⟨pre, card, post⟩; intro h; simp at h

lemma setPhase_fail (room : GameRoom) (s : String) :
    (setPhase room s).1 = false → (setPhase room s).2.2 = room := by
  unfold setPhase
  cases GamePhase.fromString s with
  | none => intro _; rfl
  | some ph => intro h; simp at h

lemma nextTurn_fail (room : GameRoom) (u : String) :
    (nextTurn room u).1 = false → (nextTurn room u).2.2 = room := by
  unfold nextTurn
  split_ifs
  · intro _; rfl
  · intro h; simp at h

lemma mulligan_fail (shuffle : List GameCard → List GameCard) (p : PlayerGameState) :
    (GameActionHandler.mulligan shuffle p).1 = false →
      (GameActionHandler.mulligan shuffle p).2.2 = p := by
  unfold GameActionHandler.mulligan
  split_ifs
  · intro _; rfl
  · intro h; simp at h

lemma liftPlayer_frame {room : GameRoom} {uid : String} {player : PlayerGameState}
    (hp : assocGet room.players uid = some player)
    {h : Bool × Option String × PlayerGameState}
    (hfr : h.1 = false → h.2.2 = player)
    (hfail : ¬ (liftPlayer room uid h).1 = true) :
    (liftPlayer room uid h).2.2 = room := by
  unfold liftPlayer at *
  dsimp only at hfail ⊢
  rw [hfr (by simpa using hfail), assocSet_get_self _ _ _ hp]

lemma record_frame {newId : String} {ts : Int} {uid atype : String} {act : ActionMsg}
    {room : GameRoom} {r : Bool × Option String × GameRoom}
    (hfr : r.1 = false → r.2.2 = room) {e : Option String}
    (hout : (recordHistory newId ts uid atype act r).1 = .ok false e) :
    (recordHistory newId ts uid atype act r).2 = room := by
  unfold recordHistory at hout ⊢
  split_ifs at hout ⊢ with hcnd
  · simp at hout
  · exact hfr (by simpa using hcnd)

/-- C7: any action submitted through `handle_action` that is rejected
(returns success `false` with a reason string) leaves the room — every
player's state, the turn fields, the started flag and the history —
exactly as it was: no rejected action performs a partial mutation. -/
lemma keep_hand_fail (p : PlayerGameState) :
    (GameActionHandler.keep_hand p).1 = false → (GameActionHandler.keep_hand p).2.2 = p := by
  intro h; simp [GameActionHandler.keep_hand] at h

lemma draw_opening_hand_fail (p : PlayerGameState) :
    (GameActionHandler.draw_opening_hand p).1 = false →
      (GameActionHandler.draw_opening_hand p).2.2 = p :=
  fun h => absurd ((draw_opening_spec p).1.symm.trans h) (by decide)

lemma preGame_frame (shuffle : List GameCard → List GameCard)
    (permIds : List String → List String) (room : GameRoom) (uid : String)
    (player : PlayerGameState) (atype : String) (e : Option String)
    (hp : assocGet room.players uid = some player) :
    (preGame shuffle permIds room uid player atype).1 = HandlerOutcome.ok false e →
      (preGame shuffle permIds room uid player atype).2 = room := by
  unfold preGame
  dsimp only
  split_ifs <;> intro h <;>
    first
      | rfl
      | (simp only [HandlerOutcome.ok.injEq] at h
         exact liftPlayer_frame hp (mulligan_fail _ _) (by simp [h.1]))
      | (simp only [HandlerOutcome.ok.injEq] at h
         exact liftPlayer_frame hp (draw_opening_hand_fail _) (by simp [h.1]))
      | (simp only [HandlerOutcome.ok.injEq, liftPlayer,
           GameActionHandler.keep_hand] at h
         exact absurd h.1 (by decide))

lemma inGame_frame (shuffle : List GameCard → List GameCard) (newId : String)
    (ts : Int) (room : GameRoom) (uid : String) (player : PlayerGameState)
    (act : ActionMsg) (atype : String) (e : Option String)
    (hp : assocGet room.players uid = some player) :
    (inGame shuffle newId ts room uid player act atype).1 = HandlerOutcome.ok false e →
      (inGame shuffle newId ts room uid player act atype).2 = room := by
  unfold inGame
  by_cases h1 : atype = "draw_card"
  · rw [if_pos h1]
    intro h
    exact record_frame
      (fun hf => liftPlayer_frame hp (draw_card_fail _) (by simp [hf])) h
  · rw [if_neg h1]
    by_cases h2 : atype = "play_card"
    · rw [if_pos h2]
      intro h
      exact record_frame
        (fun hf => liftPlayer_frame hp (play_card_fail _ _) (by simp [hf])) h
    · rw [if_neg h2]
      by_cases h3 : atype = "move_card"
      · rw [if_pos h3]
        rcases hz : GameZone.fromString (act.to_zone.getD "battlefield") with _ | z
        · intro h
          simp at h
        · intro h
          exact record_frame
            (fun hf => liftPlayer_frame hp (move_card_fail _ _ _) (by simp [hf])) h
      · rw [if_neg h3]
        by_cases h4 : atype = "discard_card"
        · rw [if_pos h4]
          intro h
          exact record_frame
            (fun hf => liftPlayer_frame hp (discard_card_fail _ _) (by simp [hf])) h
        · rw [if_neg h4]
          by_cases h5 : atype = "tap_card"
          · rw [if_pos h5]
            intro h
            exact record_frame
              (fun hf => liftPlayer_frame hp (tap_card_fail _ _) (by simp [hf])) h
          · rw [if_neg h5]
            by_cases h6 : atype = "tap_for_mana"
            · rw [if_pos h6]
              intro h
              exact record_frame
                (fun hf => liftPlayer_frame hp (tap_for_mana_fail _ _ _) (by simp [hf])) h
            · rw [if_neg h6]
              by_cases h7 : atype = "untap_all"
              · rw [if_pos h7]
                intro h
                exact record_frame
                  (fun hf => liftPlayer_frame hp (untap_all_fail _) (by simp [hf])) h
              · rw [if_neg h7]
                by_cases h8 : atype = "add_mana"
                · rw [if_pos h8]
                  intro h
                  exact record_frame
                    (fun hf => liftPlayer_frame hp (add_mana_fail _ _ _) (by simp [hf])) h
                · rw [if_neg h8]
                  by_cases h9 : atype = "remove_mana"
                  · rw [if_pos h9]
                    intro h
                    exact record_frame
                      (fun hf => liftPlayer_frame hp (remove_mana_fail _ _ _) (by simp [hf])) h
                  · rw [if_neg h9]
                    by_cases h10 : atype = "clear_mana_pool"
                    · rw [if_pos h10]
                      intro h
                      exact record_frame
                        (fun hf => liftPlayer_frame hp (clear_mana_pool_fail _) (by simp [hf])) h
                    · rw [if_neg h10]
                      by_cases h11 : atype = "shuffle_library"
                      · rw [if_pos h11]
                        intro h
                        exact record_frame
                          (fun hf => liftPlayer_frame hp (shuffle_library_fail _ _) (by simp [hf])) h
                      · rw [if_neg h11]
                        by_cases h12 : atype = "mill"
                        · rw [if_pos h12]
                          intro h
                          exact record_frame
                            (fun hf => liftPlayer_frame hp (mill_fail _ _) (by simp [hf])) h
                        · rw [if_neg h12]
                          by_cases h13 : atype = "update_life"
                          · rw [if_pos h13]
                            intro h
                            exact record_frame
                              (fun hf => liftPlayer_frame hp (update_life_fail _ _) (by simp [hf])) h
                          · rw [if_neg h13]
                            by_cases h14 : atype = "add_counter"
                            · rw [if_pos h14]
                              intro h
                              exact record_frame
                                (fun hf => liftPlayer_frame hp (add_counter_fail _ _ _) (by simp [hf])) h
                            · rw [if_neg h14]
                              by_cases h15 : atype = "remove_counter"
                              · rw [if_pos h15]
                                intro h
                                exact record_frame
                                  (fun hf => liftPlayer_frame hp (remove_counter_fail _ _ _) (by simp [hf])) h
                              · rw [if_neg h15]
                                by_cases h16 : atype = "set_phase"
                                · rw [if_pos h16]
                                  intro h
                                  exact record_frame (setPhase_fail _ _) h
                                · rw [if_neg h16]
                                  by_cases h17 : atype = "next_turn"
                                  · rw [if_pos h17]
                                    intro h
                                    exact record_frame (nextTurn_fail _ _) h
                                  · rw [if_neg h17]
                                    intro _
                                    rfl

/-- C7: any action submitted through `handle_action` that is rejected
(returns success `false` with a reason string) leaves the room — every
player's state, the turn fields, the started flag and the history —
exactly as it was: no rejected action performs a partial mutation. -/
theorem rejected_action_frame (shuffle : List GameCard → List GameCard)
    (permIds : List String → List String) (newId : String) (ts : Int)
    (room : GameRoom) (uid : String) (act : ActionMsg) (e : Option String) :
    (handle_action shuffle permIds newId ts room uid act).1 = HandlerOutcome.ok false e →
      (handle_action shuffle permIds newId ts room uid act).2 = room := by
  unfold handle_action
  cases hp : assocGet room.players uid with
  | none => intro _; rfl
  | some player =>
    dsimp only
    split_ifs
    · exact inGame_frame shuffle newId ts room uid player act (act.action.getD "") e hp
    · exact preGame_frame shuffle permIds room uid player (act.action.getD "") e hp

/-! ### History recording and serialization bound (claim C9) -/

lemma record_success {newId : String} {ts : Int} {uid atype : String} {act : ActionMsg}
    {room : GameRoom} {r : Bool × Option String × GameRoom} {e : Option String}
    (hist_eq : r.2.2.history = room.history) :
    (recordHistory newId ts uid atype act r).1 = HandlerOutcome.ok true e →
      (recordHistory newId ts uid atype act r).2.history = room.history ++
        [{ id := newId, timestamp := ts, player_id := uid, action_type := atype
           card_instance_id := act.instance_id, from_zone := none
           to_zone := act.to_zone, details := act.details }] := by
  unfold recordHistory
  split_ifs
  · intro _
    dsimp only
    rw [hist_eq]
  · intro h
    simp at h

lemma start_game_history (permIds : List String → List String) (r : GameRoom) :
    (start_game permIds r).2.2.history = r.history := by
  unfold start_game
  split_ifs <;> rfl

lemma setPhase_history (room : GameRoom) (s : String) :
    (setPhase room s).2.2.history = room.history := by
  unfold setPhase
  cases GamePhase.fromString s <;> rfl

lemma nextTurn_history (room : GameRoom) (u : String) :
    (nextTurn room u).2.2.history = room.history := by
  unfold nextTurn
  split_ifs with h
  · rfl
  · dsimp only [advanceTurn]
    exact (untapClearActive_fields room).2.2.2.2.2

lemma preGame_history (shuffle : List GameCard → List GameCard)
    (permIds : List String → List String) (room : GameRoom) (uid : String)
    (player : PlayerGameState) (atype : String) :
    (preGame shuffle permIds room uid player atype).2.history = room.history := by
  unfold preGame
  dsimp only
  split_ifs <;>
    first
      | rfl
      | exact start_game_history permIds _

lemma inGame_history (shuffle : List GameCard → List GameCard) (newId : String)
    (ts : Int) (room : GameRoom) (uid : String) (player : PlayerGameState)
    (act : ActionMsg) (atype : String) (e : Option String) :
    (inGame shuffle newId ts room uid player act atype).1 = HandlerOutcome.ok true e →
      (inGame shuffle newId ts room uid player act atype).2.history = room.history ++
        [{ id := newId, timestamp := ts, player_id := uid, action_type := atype
           card_instance_id := act.instance_id, from_zone := none
           to_zone := act.to_zone, details := act.details }] := by
  unfold inGame
  by_cases h1 : atype = "draw_card"
  · rw [if_pos h1]; exact record_success rfl
  · rw [if_neg h1]
    by_cases h2 : atype = "play_card"
    · rw [if_pos h2]; exact record_success rfl
    · rw [if_neg h2]
      by_cases h3 : atype = "move_card"
      · rw [if_pos h3]
        rcases GameZone.fromString (act.to_zone.getD "battlefield") with _ | z
        · intro h; simp at h
        · exact record_success rfl
      · rw [if_neg h3]
        by_cases h4 : atype = "discard_card"
        · rw [if_pos h4]; exact record_success rfl
        · rw [if_neg h4]
          by_cases h5 : atype = "tap_card"
          · rw [if_pos h5]; exact record_success rfl
          · rw [if_neg h5]
            by_cases h6 : atype = "tap_for_mana"
            · rw [if_pos h6]; exact record_success rfl
            · rw [if_neg h6]
              by_cases h7 : atype = "untap_all"
              · rw [if_pos h7]; exact record_success rfl
              · rw [if_neg h7]
                by_cases h8 : atype = "add_mana"
                · rw [if_pos h8]; exact record_success rfl
                · rw [if_neg h8]
                  by_cases h9 : atype = "remove_mana"
                  · rw [if_pos h9]; exact record_success rfl
                  · rw [if_neg h9]
                    by_cases h10 : atype = "clear_mana_pool"
                    · rw [if_pos h10]; exact record_success rfl
                    · rw [if_neg h10]
                      by_cases h11 : atype = "shuffle_library"
                      · rw [if_pos h11]; exact record_success rfl
                      · rw [if_neg h11]
                        by_cases h12 : atype = "mill"
                        · rw [if_pos h12]; exact record_success rfl
                        · rw [if_neg h12]
                          by_cases h13 : atype = "update_life"
                          · rw [if_pos h13]; exact record_success rfl
                          · rw [if_neg h13]
                            by_cases h14 : atype = "add_counter"
                            · rw [if_pos h14]; exact record_success rfl
                            · rw [if_neg h14]
                              by_cases h15 : atype = "remove_counter"
                              · rw [if_pos h15]; exact record_success rfl
                              · rw [if_neg h15]
                                by_cases h16 : atype = "set_phase"
                                · rw [if_pos h16]
                                  exact record_success (setPhase_history room _)
                                · rw [if_neg h16]
                                  by_cases h17 : atype = "next_turn"
                                  · rw [if_pos h17]
                                    exact record_success (nextTurn_history room uid)
                                  · rw [if_neg h17]
                                    intro h
                                    simp at h

/-- C9 (amended): every successful in-game action appends exactly one
`GameAction` entry to history, and no rejected action appends any; but
pre-game actions (mulligan, keep_hand, draw_opening_hand) return before
the history epilogue, so their successes append nothing.  Every
serialized projection carries only the most recent 20 entries. -/
theorem history_append_spec (shuffle : List GameCard → List GameCard)
    (permIds : List String → List String) (newId : String) (ts : Int)
    (room : GameRoom) (uid : String) (act : ActionMsg) (viewer : Option String) :
    (room.started = true →
      ∀ e, (handle_action shuffle permIds newId ts room uid act).1 = HandlerOutcome.ok true e →
        (handle_action shuffle permIds newId ts room uid act).2.history = room.history ++
          [{ id := newId, timestamp := ts, player_id := uid
             action_type := act.action.getD ""
             card_instance_id := act.instance_id, from_zone := none
             to_zone := act.to_zone, details := act.details }]) ∧
    (∀ e, (handle_action shuffle permIds newId ts room uid act).1 = HandlerOutcome.ok false e →
      (handle_action shuffle permIds newId ts room uid act).2.history = room.history) ∧
    (room.started = false →
      (handle_action shuffle permIds newId ts room uid act).2.history = room.history) ∧
    (room.to_dict viewer).history = room.history.drop (room.history.length - 20) ∧
    ((room.to_dict viewer).history).length = min 20 room.history.length := by
  refine ⟨?_, ?_, ?_, rfl, ?_⟩
  · intro hst e
    unfold handle_action
    cases hp : assocGet room.players uid with
    | none => intro h; simp at h
    | some player =>
      dsimp only
      rw [if_neg (by simp [hst])]
      exact inGame_history shuffle newId ts room uid player act (act.action.getD "") e
  · intro e
    unfold handle_action
    cases hp : assocGet room.players uid with
    | none => intro _; rfl
    | some player =>
      dsimp only
      split_ifs
      · intro h
        rw [inGame_frame shuffle newId ts room uid player act (act.action.getD "") e hp h]
      · intro h
        rw [preGame_frame shuffle permIds room uid player (act.action.getD "") e hp h]
  · intro hst
    unfold handle_action
    cases hp : assocGet room.players uid with
    | none => rfl
    | some player =>
      dsimp only
      rw [if_pos (by simp [hst])]
      exact preGame_history shuffle permIds room uid player (act.action.getD "")
  · show (room.history.drop (room.history.length - 20)).length = min 20 room.history.length
    rw [List.length_drop]
    omega

/-- C9 counterexample: a successful pre-game mulligan through
`handle_action` appends no history entry — the claim that every
successful action appends exactly one entry fails. -/
theorem pregame_history_counterexample :
    lobbyRoom.history = [] ∧
    (handle_action id id "h9" 0 lobbyRoom "B" { action := some "mulligan" }).1
      = HandlerOutcome.ok true none ∧
    (handle_action id id "h9" 0 lobbyRoom "B" { action := some "mulligan" }).2.history = [] := by
  decide

/-- C9 witness: a successful in-game `update_life` in the demo room
appends exactly the expected entry, and the projection keeps the last
20 entries. -/
theorem history_append_spec_witness :
    (handle_action id id "h9" 5 demoRoom "A"
        { action := some "update_life", change := some 3 }).2.history
      = demoRoom.history ++
        [{ id := "h9", timestamp := 5, player_id := "A"
           action_type := (some "update_life").getD ""
           card_instance_id := none, from_zone := none
           to_zone := none, details := none }] ∧
    (demoRoom.to_dict (some "A")).history
      = demoRoom.history.drop (demoRoom.history.length - 20) := by
  have h := history_append_spec id id "h9" 5 demoRoom "A"
    { action := some "update_life", change := some 3 } (some "A")
  exact ⟨h.1 (by decide) none (by decide), h.2.2.2.1⟩

/-- C7 witness: in the started demo room, `draw_card` by `B` (whose
library is empty) is rejected with "Library is empty" and the room is
exactly unchanged. -/
theorem rejected_action_frame_witness :
    (handle_action id id "h1" 0 demoRoom "B" { action := some "draw_card" }).1
      = HandlerOutcome.ok false (some "Library is empty") ∧
    (handle_action id id "h1" 0 demoRoom "B" { action := some "draw_card" }).2 = demoRoom :=
  ⟨by decide,
    rejected_action_frame id id "h1" 0 demoRoom "B" { action := some "draw_card" }
      (some "Library is empty") (by decide)⟩

/-! ### Leaving a room (claim C10) -/

lemma assocGet_assocPop_self {β : Type} :
    ∀ (l : List (String × β)) (k : String), assocGet (assocPop l k) k = none := by
  intro l
  induction l with
  | nil => intro k; rfl
  | cons kv rest ih =>
    intro k
    rw [assocPop]
    by_cases hk : kv.1 = k
    · rw [if_pos hk]
      exact ih k
    · rw [if_neg hk]
      rw [assocGet, if_neg hk]
      exact ih k

lemma assocGet_assocPop_ne {β : Type} :
    ∀ (l : List (String × β)) (k u : String), u ≠ k →
      assocGet (assocPop l k) u = assocGet l u := by
  intro l
  induction l with
  | nil => intro k u _; rfl
  | cons kv rest ih =>
    intro k u hu
    rw [assocPop]
    by_cases hk : kv.1 = k
    · rw [if_pos hk]
      rw [assocGet, if_neg (by rw [hk]; exact fun he => hu he.symm)]
      exact ih k u hu
    · rw [if_neg hk]
      rw [assocGet, assocGet]
      split_ifs with h2
      · rfl
      · exact ih k u hu

/-- C10: `leave_room` removes the departing player only from the
room's player map, the room's connection set and the player-to-room
index, deleting the room (and its connections) when the player map
becomes empty; it never touches `turn_order`, `active_player_id`,
`turn_number` or `phase` (the surviving room differs from the old one
in its `players` field alone).  Consequently, if the departed player
was the active player and `turn_order` is non-empty, `next_turn` on
the surviving room still succeeds: the untap/mana-clear step is
skipped (no player state changes at all) and the new active player is
taken from the unchanged `turn_order`. -/
theorem leave_room_frame (st : ManagerState) (uid code : String) (room : GameRoom)
    (hpr : assocGet st.player_room uid = some code)
    (hrm : assocGet st.rooms code = some room) :
    (leave_room st uid).1 = some code ∧
    assocGet (leave_room st uid).2.player_room uid = none ∧
    (∀ u, u ≠ uid →
      assocGet (leave_room st uid).2.player_room u = assocGet st.player_room u) ∧
    (assocPop room.players uid = [] →
      assocGet (leave_room st uid).2.rooms code = none ∧
      assocGet (leave_room st uid).2.connections code = none) ∧
    (assocPop room.players uid ≠ [] →
      assocGet (leave_room st uid).2.rooms code
        = some { room with players := assocPop room.players uid }) ∧
    (∀ c, c ≠ code →
      assocGet (leave_room st uid).2.rooms c = assocGet st.rooms c) ∧
    (room.active_player_id = some uid → room.turn_order ≠ [] → ∀ u2,
      (nextTurn { room with players := assocPop room.players uid } u2).1 = true ∧
      (nextTurn { room with players := assocPop room.players uid } u2).2.2.players
        = assocPop room.players uid ∧
      (nextTurn { room with players := assocPop room.players uid } u2).2.2.turn_number
        = room.turn_number + 1 ∧
      (nextTurn { room with players := assocPop room.players uid } u2).2.2.phase
        = GamePhase.untap ∧
      (uid ∈ room.turn_order →
        (nextTurn { room with players := assocPop room.players uid } u2).2.2.active_player_id
          = room.turn_order[(room.turn_order.indexOf uid + 1) % room.turn_order.length]?)) := by
  have hnext : room.active_player_id = some uid → room.turn_order ≠ [] → ∀ u2,
      (nextTurn { room with players := assocPop room.players uid } u2).1 = true ∧
      (nextTurn { room with players := assocPop room.players uid } u2).2.2.players
        = assocPop room.players uid ∧
      (nextTurn { room with players := assocPop room.players uid } u2).2.2.turn_number
        = room.turn_number + 1 ∧
      (nextTurn { room with players := assocPop room.players uid } u2).2.2.phase
        = GamePhase.untap ∧
      (uid ∈ room.turn_order →
        (nextTurn { room with players := assocPop room.players uid } u2).2.2.active_player_id
          = room.turn_order[(room.turn_order.indexOf uid + 1) % room.turn_order.length]?) := by
    intro hact hord u2
    unfold nextTurn
    rw [if_neg (by dsimp only; simpa [List.isEmpty_iff] using hord)]
    have huc : untapClearActive { room with players := assocPop room.players uid }
        = { room with players := assocPop room.players uid } := by
      unfold untapClearActive
      have hnone : assocGet ({ room with players := assocPop room.players uid }).players
          (({ room with players := assocPop room.players uid }).active_player_id.getD "")
          = none := by
        dsimp only
        rw [hact]
        dsimp only [Option.getD]
        exact assocGet_assocPop_self room.players uid
      rw [hnone]
    rw [huc]
    refine ⟨rfl, rfl, rfl, rfl, ?_⟩
    intro hmem
    dsimp only [advanceTurn]
    have hidx : currentIdx { room with players := assocPop room.players uid }
        = (room.turn_order.indexOf uid : Int) := by
      unfold currentIdx
      dsimp only
      rw [hact]
      dsimp only
      rw [if_pos hmem]
    rw [hidx]
    have hcast : (((room.turn_order.indexOf uid : Int) + 1)
        % (room.turn_order.length : Int)).toNat
        = (room.turn_order.indexOf uid + 1) % room.turn_order.length := by
      have h1 : ((room.turn_order.indexOf uid + 1 : Nat) : Int)
          = (room.turn_order.indexOf uid : Int) + 1 := by push_cast; ring
      rw [← h1, ← Int.natCast_mod]
      exact Int.toNat_natCast _
    rw [hcast]
  unfold leave_room
  rw [hpr]
  dsimp only
  rw [hrm]
  dsimp only
  cases hconn : assocGet st.connections code with
  | some conns =>
    dsimp only
    by_cases hemp : (assocPop room.players uid).isEmpty
    · rw [if_pos hemp]
      dsimp only
      refine ⟨rfl, assocGet_assocPop_self _ _,
        fun u hu => assocGet_assocPop_ne _ _ _ hu,
        fun _ => ⟨assocGet_assocPop_self _ _, assocGet_assocPop_self _ _⟩,
        fun hne => absurd (List.isEmpty_iff.mp hemp) hne, fun c hc => ?_, hnext⟩
      rw [assocGet_assocPop_ne _ _ _ hc, assocGet_assocSet_ne _ _ _ _ hc]
    · rw [if_neg hemp]
      dsimp only
      refine ⟨rfl, assocGet_assocPop_self _ _,
        fun u hu => assocGet_assocPop_ne _ _ _ hu,
        fun he => absurd he (by simpa [List.isEmpty_iff] using hemp),
        fun _ => assocGet_assocSet_self _ _ _,
        fun c hc => assocGet_assocSet_ne _ _ _ _ hc, hnext⟩
  | none =>
    dsimp only
    by_cases hemp : (assocPop room.players uid).isEmpty
    · rw [if_pos hemp]
      dsimp only
      refine ⟨rfl, assocGet_assocPop_self _ _,
        fun u hu => assocGet_assocPop_ne _ _ _ hu,
        fun _ => ⟨assocGet_assocPop_self _ _, assocGet_assocPop_self _ _⟩,
        fun hne => absurd (List.isEmpty_iff.mp hemp) hne, fun c hc => ?_, hnext⟩
      rw [assocGet_assocPop_ne _ _ _ hc, assocGet_assocSet_ne _ _ _ _ hc]
    · rw [if_neg hemp]
      dsimp only
      refine ⟨rfl, assocGet_assocPop_self _ _,
        fun u hu => assocGet_assocPop_ne _ _ _ hu,
        fun he => absurd he (by simpa [List.isEmpty_iff] using hemp),
        fun _ => assocGet_assocSet_self _ _ _,
        fun c hc => assocGet_assocSet_ne _ _ _ _ hc, hnext⟩

/-- C10 witness: the active player `B` leaves the demo registry; the
survived room keeps its turn machinery, and `next_turn` still succeeds
with the next entry of the unchanged turn order, with no untap step. -/
theorem leave_room_frame_witness :
    (leave_room demoManager "B").1 = some "ABC123" ∧
    assocGet (leave_room demoManager "B").2.player_room "B" = none ∧
    assocGet (leave_room demoManager "B").2.rooms "ABC123"
      = some { demoRoom with players := assocPop demoRoom.players "B" } ∧
    (nextTurn { demoRoom with players := assocPop demoRoom.players "B" } "A").1 = true ∧
    (nextTurn { demoRoom with players := assocPop demoRoom.players "B" } "A").2.2.players
      = assocPop demoRoom.players "B" ∧
    (nextTurn { demoRoom with players := assocPop demoRoom.players "B" } "A").2.2.active_player_id
      = demoRoom.turn_order[(demoRoom.turn_order.indexOf "B" + 1)
          % demoRoom.turn_order.length]? := by
  have h := leave_room_frame demoManager "B" "ABC123" demoRoom (by decide) (by decide)
  have hn := h.2.2.2.2.2.2 (by decide) (by decide) "A"
  exact ⟨h.1, h.2.1, h.2.2.2.2.1 (by decide), hn.1, hn.2.1, hn.2.2.2.2 (by decide)⟩

end MtgBuilder
